import Mathlib

/-!
# Verification of the ROR-to-OWL record mapping (`build.py`)

This file gives a shallow embedding of the record-to-ontology mapping engine
of `build.py` (the `main` function and the module-level tables it uses) and
proves the behavioural claims about it.

Modelling conventions:

* The funowl / rdflib ontology objects are modelled by explicit lists:
  `ontology.declarations(...)` appends to a `decls` list and
  `ontology.annotations` is the `annots` list, both append-only, mirroring
  the mutation order of the source.
* URIs (`URIRef`, namespace lookups) are plain strings; namespace indexing
  is string concatenation, exactly as in rdflib.
* The external collaborators are parameters of the run, collected in
  `Params`:
  - `litErr` models the outcome of constructing a funowl
    assertion around `Literal(value)`: `none` means construction succeeds,
    `some e` means it raises `TypeError` or `AssertionError` (the two
    exception classes named in the source's `except` clauses).
  - `normScheme` models `bioregistry.normalize_prefix`.
  - `gnorm` models `gilda.process.normalize` (only used for the side-output
    term list).
* Uncaught Python exceptions are modelled by the `Option RunErr` component
  threaded through processing: `some e` aborts the remaining work of the
  run but keeps the mutations performed so far, exactly like an exception
  unwinding out of `main` leaves the (discarded) ontology object mutated.
* Python `dict`s that are only iterated / membership-tested are modelled as
  association lists in insertion order (`external_ids`), and the
  `unhandled_xref_prefixes` set as a list with membership test and append.
-/

/-- `TypeError` / `AssertionError`, the two exception classes that funowl
assertion construction can raise according to the source's `except` clauses. -/
inductive LitErr
  | typeError
  | assertError
deriving DecidableEq, Repr

/-- An uncaught exception escaping record processing: a `KeyError` from the
`RMAP[...]` lookup (carrying the missing key) or an uncontained literal
construction error. -/
inductive RunErr
  | keyError (k : String)
  | uncaught (e : LitErr)
deriving DecidableEq, Repr

/-- The value of `external_ids[prefix]["all"]`: a JSON list of identifier
strings that may collapse to a bare string. -/
inductive PyStrList
  | str (s : String)
  | list (l : List String)
deriving DecidableEq, Repr

/-- Python iteration over the raw `xref_data["all"]` value
(`for xref_id in xref_data["all"]`): iterating a bare string yields its
characters one by one, iterating a list yields its elements. -/
def pyIter : PyStrList → List String
  | PyStrList.str s => s.toList.map Char.toString
  | PyStrList.list l => l

/-- The `isinstance(identifiers, str)` normalization of the source
(lines 263-265): a bare string becomes a singleton list. -/
def pyToList : PyStrList → List String
  | PyStrList.str s => [s]
  | PyStrList.list l => l

/-- `geonames_city` descriptor nested in an address: numeric `id` and
display name `city`. -/
structure GeoCity where
  id : Nat
  city : String
deriving DecidableEq, Repr

/-- One entry of `record["addresses"]`; only the optional `geonames_city`
field is consumed. -/
structure Address where
  geonames_city : Option GeoCity
deriving DecidableEq, Repr

/-- One entry of `record["relationships"]`: `{type, id}`. -/
structure Relationship where
  type : String
  id : String
deriving DecidableEq, Repr

/-- An input organization record, with the fields `main` consumes.
Missing `addresses` / `relationships` / `aliases` / `acronyms` /
`external_ids` keys default to empty collections (`record.get(..., [])`),
so they are plain lists here. -/
structure Record where
  id : String
  name : String
  addresses : List Address
  relationships : List Relationship
  aliases : List String
  acronyms : List String
  external_ids : List (String × PyStrList)
deriving DecidableEq, Repr

/-- External collaborator behaviour, passed explicitly:
funowl literal/assertion construction, `bioregistry.normalize_prefix`,
and `gilda.process.normalize`. -/
structure Params where
  litErr : String → Option LitErr
  normScheme : String → Option String
  gnorm : String → String

-- Namespace constants of the source (lines 33-53), as concrete URI strings.

/-- `ENVO["00000856"]` — the city class. -/
def CITY_CLASS : String := "http://purl.obolibrary.org/obo/ENVO_00000856"

/-- `OBI["0000245"]` — the organization class. -/
def ORG_CLASS : String := "http://purl.obolibrary.org/obo/OBI_0000245"

/-- `RO["0001025"]` — located in. -/
def LOCATED_IN : String := "http://purl.obolibrary.org/obo/RO_0001025"

/-- `BFO["0000050"]` — part of. -/
def PART_OF : String := "http://purl.obolibrary.org/obo/BFO_0000050"

/-- `BFO["0000051"]` — has part. -/
def HAS_PART : String := "http://purl.obolibrary.org/obo/BFO_0000051"

/-- `BFO["0000063"]` — successor relation term. -/
def SUCCESSOR : String := "http://purl.obolibrary.org/obo/BFO_0000063"

/-- `BFO["0000062"]` — predecessor relation term. -/
def PREDECESSOR : String := "http://purl.obolibrary.org/obo/BFO_0000062"

/-- `ORCID["0000-0003-4423-4370"]`. -/
def CHARLIE : String := "https://orcid.org/0000-0003-4423-4370"

/-- `RDFS.seeAlso`. -/
def rdfsSeeAlso : String := "http://www.w3.org/2000/01/rdf-schema#seeAlso"

/-- `RDFS.label`. -/
def rdfsLabel : String := "http://www.w3.org/2000/01/rdf-schema#label"

/-- `OIO["hasExactSynonym"]`. -/
def oioHasExactSynonym : String :=
  "http://www.geneontology.org/formats/oboInOwl#hasExactSynonym"

/-- `OIO["hasDbXref"]`. -/
def oioHasDbXref : String :=
  "http://www.geneontology.org/formats/oboInOwl#hasDbXref"

/-- `OIO["SynonymType"]`. -/
def oioSynonymType : String :=
  "http://www.geneontology.org/formats/oboInOwl#SynonymType"

/-- `OMO["0003000"]` — the acronym synonym type. -/
def omoAcronym : String := "http://purl.obolibrary.org/obo/OMO_0003000"

/-- `DCTERMS.title`. -/
def dctermsTitle : String := "http://purl.org/dc/terms/title"

/-- `DCTERMS.creator`. -/
def dctermsCreator : String := "http://purl.org/dc/terms/creator"

/-- `DCTERMS.license`. -/
def dctermsLicense : String := "http://purl.org/dc/terms/license"

/-- `DCTERMS.source`. -/
def dctermsSource : String := "http://purl.org/dc/terms/source"

/-- `OWL.versionInfo`. -/
def owlVersionInfo : String := "http://www.w3.org/2002/07/owl#versionInfo"

/-- The ontology IRI constant `ONTOLOGY_URI` (line 69). -/
def ONTOLOGY_URI : String := "https://w3id.org/rorio/rorio.owl"

/-- `GEONAMES[str(city["id"])]` (line 178): namespace concatenation with the
stringified numeric city id. -/
def geonamesUri (n : Nat) : String := "https://www.geonames.org/" ++ toString n

/-- The fixed relationship-type map `RMAP` (lines 54-60), in source order. -/
def RMAP : List (String × String) :=
  [("Related", rdfsSeeAlso),
   ("Child", HAS_PART),
   ("Parent", PART_OF),
   ("Predecessor", PREDECESSOR),
   ("Successor", SUCCESSOR)]

/-- `RMAP[label]` as a lookup: `none` models the `KeyError` case. -/
def rmapLookup (t : String) : Option String :=
  (RMAP.find? (fun q => q.1 == t)).map Prod.snd

/-- The fixed name-correction table `NAME_REMAPPING` (lines 61-67).
(`\x27` is an ASCII apostrophe.) -/
def NAME_REMAPPING : List (String × String) :=
  [("\x27s-Hertogenbosch", "Den Bosch"),
   ("\x27s Heeren Loo", "s Heeren Loo"),
   ("\x27s-Heerenberg", "s-Heerenberg"),
   ("Institut Virion\\Serion", "Institut Virion/Serion"),
   ("Hematology\\Oncology Clinic", "Hematology/Oncology Clinic")]

/-- `NAME_REMAPPING.get(name, name)` (lines 155, 180). -/
def nameRemap (s : String) : String :=
  match NAME_REMAPPING.find? (fun q => q.1 == s) with
  | some q => q.2
  | none => s

/-- `record["id"].removeprefix("https://ror.org/")` (line 153): drop the
prefix when present, otherwise return the string unchanged. -/
def rorLuid (s : String) : String :=
  if List.isPrefixOf "https://ror.org/".toList s.toList then
    String.mk (s.toList.drop 16)
  else s

/-- `xref_id.replace(" ", "")` (line 271): remove every space character. -/
def stripSpaces (s : String) : String :=
  String.mk (s.toList.filter (fun c => c != ' '))

/-- Modelled from the spec: `bioregistry.curie_to_str` (an external
collaborator) joins the normalized prefix and the identifier into the
canonical "prefix:identifier" reference string, as in the spec's example
`isni:0000000123456789`. -/
def curieToStr (np i : String) : String := np ++ ":" ++ i

/-- One axiom appended to `ontology.annotations`: ontology-level header
annotations, literal- or reference-valued annotation assertions (with
optional qualifier annotations, used for acronyms), class assertions and
object-property assertions. -/
inductive Assertion
  | ontologyAnnot (prop value : String)
  | annotationLit (prop subj value : String) (quals : List (String × String))
  | annotationRef (prop subj obj : String)
  | classAssertion (cls ind : String)
  | objectPropertyAssertion (prop subj obj : String)
deriving DecidableEq, Repr

/-- One entry appended by `ontology.declarations(...)`. -/
inductive Decl
  | clsDecl (uri : String)
  | objProp (uri : String)
  | namedInd (uri : String)
deriving DecidableEq, Repr

/-- One `tqdm.write` diagnostic line group, structured. -/
inductive Diag
  | failedOrg (name uri : String)
  | failedCity (orgUri name uri : String)
  | badSynonym (orgName orgUri s : String)
  | badAcronym (orgName orgUri s : String)
  | unhandledScheme (scheme orgName orgUri : String) (values : List String)
deriving DecidableEq, Repr

/-- One gilda `Term` as built by `_add_term` (lines 132-143). -/
structure GTerm where
  norm_text : String
  text : String
  db : String
  id : String
  entry_name : String
  status : String
  source : String
deriving DecidableEq, Repr

/-- `Term(norm_text=normalize(t), text=t, db="ror", id=luid,
entry_name=entry_name, status=status, source="ror")`. -/
def mkTerm (P : Params) (t luid entryName status : String) : GTerm :=
  ⟨P.gnorm t, t, "ror", luid, entryName, status, "ror"⟩

/-- The mutable state of one run of `main`: the two ontology lists, the
`unhandled_xref_prefixes` set (as a list in insertion order), the
diagnostics stream, and the gilda term list. -/
structure RunState where
  decls : List Decl
  annots : List Assertion
  unhandled : List String
  diags : List Diag
  terms : List GTerm
deriving DecidableEq, Repr

/-- Run a per-item step over a list, threading the state and stopping at the
first uncaught exception (which keeps the mutations made so far). -/
def foldSteps (f : RunState → α → RunState × Option RunErr) :
    RunState → List α → RunState × Option RunErr
  | st, [] => (st, none)
  | st, x :: xs =>
    match f st x with
    | (st1, none) => foldSteps f st1 xs
    | (st1, some e) => (st1, some e)

/-- Processing one entry of `record.get("addresses", [])` (lines 174-202).
The city individual is declared before the fallible triple construction;
only `AssertionError` is caught there, so a `TypeError` escapes. -/
def cityStep (P : Params) (orgUri : String) (st : RunState) (a : Address) :
    RunState × Option RunErr :=
  match a.geonames_city with
  | none => (st, none)
  | some c =>
    let cityUri := geonamesUri c.id
    let cname := nameRemap c.city
    let st1 : RunState := { st with decls := st.decls ++ [Decl.namedInd cityUri] }
    match P.litErr cname with
    | none =>
        ({ st1 with annots := st1.annots ++
            [Assertion.objectPropertyAssertion LOCATED_IN orgUri cityUri,
             Assertion.annotationLit rdfsLabel cityUri cname [],
             Assertion.classAssertion CITY_CLASS cityUri] }, none)
    | some LitErr.assertError =>
        ({ st1 with diags := st1.diags ++ [Diag.failedCity orgUri cname cityUri] }, none)
    | some LitErr.typeError => (st1, some (RunErr.uncaught LitErr.typeError))

/-- Processing one entry of `record.get("relationships", [])`
(lines 204-211): the `RMAP` lookup has no error containment, a miss is an
uncaught `KeyError`. -/
def relStep (orgUri : String) (st : RunState) (rel : Relationship) :
    RunState × Option RunErr :=
  match rmapLookup rel.type with
  | none => (st, some (RunErr.keyError rel.type))
  | some prop =>
      ({ st with annots := st.annots ++ [Assertion.annotationRef prop orgUri rel.id] }, none)

/-- Processing one entry of `record.get("aliases", [])` (lines 213-225):
both `AssertionError` and `TypeError` are caught and reported. -/
def synStep (P : Params) (orgUri orgName luid : String) (st : RunState)
    (synonym : String) : RunState × Option RunErr :=
  match P.litErr synonym with
  | some _ =>
      ({ st with diags := st.diags ++ [Diag.badSynonym orgName orgUri synonym] }, none)
  | none =>
      ({ st with
          annots := st.annots ++
            [Assertion.annotationLit oioHasExactSynonym orgUri synonym []],
          terms := st.terms ++ [mkTerm P synonym luid orgName "synonym"] }, none)

/-- Processing one entry of `record.get("acronyms", [])` (lines 227-245):
like a synonym but with the acronym qualifier annotation, and no gilda
term (the `_add_term` call is commented out in the source). -/
def acrStep (P : Params) (orgUri orgName : String) (st : RunState)
    (acronym : String) : RunState × Option RunErr :=
  match P.litErr acronym with
  | some _ =>
      ({ st with diags := st.diags ++ [Diag.badAcronym orgName orgUri acronym] }, none)
  | none =>
      ({ st with annots := st.annots ++
          [Assertion.annotationLit oioHasExactSynonym orgUri acronym
            [(oioSynonymType, omoAcronym)]] }, none)

/-- Emitting one cross-reference fact for one normalized identifier
(lines 266-273): the `AnnotationAssertion` around `Literal(curie)` is built
with NO try/except, so when the literal construction fails the exception
escapes — the facts appended in earlier iterations remain. -/
def xrefIdStep (P : Params) (orgUri np : String) (st : RunState) (i : String) :
    RunState × Option RunErr :=
  let v := curieToStr np (stripSpaces i)
  match P.litErr v with
  | some e => (st, some (RunErr.uncaught e))
  | none =>
      ({ st with annots := st.annots ++
          [Assertion.annotationLit oioHasDbXref orgUri v []] }, none)

/-- Processing one entry of `record.get("external_ids", {})`
(lines 247-273): the "OrgRef" scheme is skipped outright; an unresolvable
prefix is reported once per run (set-guarded) iterating the raw `all`
value; a resolvable prefix emits one xref fact per normalized identifier,
with the uncontained, fallible construction of `xrefIdStep`. -/
def xrefStep (P : Params) (orgUri orgName : String) (st : RunState)
    (e : String × PyStrList) : RunState × Option RunErr :=
  if e.1 = "OrgRef" then (st, none)
  else
    match P.normScheme e.1 with
    | none =>
        if e.1 ∈ st.unhandled then (st, none)
        else
          ({ st with
              diags := st.diags ++
                [Diag.unhandledScheme e.1 orgName orgUri (pyIter e.2)],
              unhandled := st.unhandled ++ [e.1] }, none)
    | some np => foldSteps (xrefIdStep P orgUri np) st (pyToList e.2)

/-- Whether every cross-reference literal an `external_ids` entry would
construct encodes fine — the condition under which the uncontained
construction of lines 266-273 cannot abort the run. -/
def xrefEntryOk (P : Params) (e : String × PyStrList) : Bool :=
  if e.1 = "OrgRef" then true
  else
    match P.normScheme e.1 with
    | none => true
    | some np =>
        (pyToList e.2).all (fun i => (P.litErr (curieToStr np (stripSpaces i))).isNone)

/-- Processing one record (the body of the `for record in tqdm(...)` loop,
lines 145-273): declare the individual, attempt label + class assertion as
one unit (`continue` past the whole record on failure), then the address,
relationship, alias, acronym and external-id loops in source order. -/
def processRecord (P : Params) (st : RunState) (r : Record) :
    RunState × Option RunErr :=
  let orgUri := r.id
  let luid := rorLuid r.id
  let oname := nameRemap r.name
  let st1 : RunState := { st with decls := st.decls ++ [Decl.namedInd orgUri] }
  match P.litErr oname with
  | some _ =>
      ({ st1 with diags := st1.diags ++ [Diag.failedOrg oname orgUri] }, none)
  | none =>
    let st2 : RunState := { st1 with
      annots := st1.annots ++
        [Assertion.annotationLit rdfsLabel orgUri oname [],
         Assertion.classAssertion ORG_CLASS orgUri],
      terms := st1.terms ++ [mkTerm P oname luid oname "name"] }
    match foldSteps (cityStep P orgUri) st2 r.addresses with
    | (st3, some e) => (st3, some e)
    | (st3, none) =>
      match foldSteps (relStep orgUri) st3 r.relationships with
      | (st4, some e) => (st4, some e)
      | (st4, none) =>
        match foldSteps (synStep P orgUri oname luid) st4 r.aliases with
        | (st5, some e) => (st5, some e)
        | (st5, none) =>
          match foldSteps (acrStep P orgUri oname) st5 r.acronyms with
          | (st6, some e) => (st6, some e)
          | (st6, none) => foldSteps (xrefStep P orgUri oname) st6 r.external_ids

/-- The whole record loop. -/
def processRecords (P : Params) (st : RunState) (rs : List Record) :
    RunState × Option RunErr :=
  foldSteps (processRecord P) st rs

/-- The declarations made at initialization (lines 111-116):
the two classes, `LOCATED_IN`, and the `RMAP` relation terms. -/
def initDecls : List Decl :=
  [Decl.clsDecl CITY_CLASS, Decl.clsDecl ORG_CLASS, Decl.objProp LOCATED_IN] ++
    RMAP.map (fun q => Decl.objProp q.2)

/-- The annotations present before any record is processed: the six header
annotations (lines 100-109) followed by the eight vocabulary labels
(lines 117-128), in source order. -/
def initAnnots (version sourceUri : String) : List Assertion :=
  [Assertion.ontologyAnnot dctermsTitle "ROR in OWL",
   Assertion.ontologyAnnot dctermsCreator CHARLIE,
   Assertion.ontologyAnnot dctermsLicense
     "https://creativecommons.org/publicdomain/zero/1.0/",
   Assertion.ontologyAnnot rdfsSeeAlso "https://github.com/cthoyt/rorio",
   Assertion.ontologyAnnot owlVersionInfo version,
   Assertion.ontologyAnnot dctermsSource sourceUri,
   Assertion.annotationLit rdfsLabel CITY_CLASS "city" [],
   Assertion.annotationLit rdfsLabel ORG_CLASS "organization" [],
   Assertion.annotationLit rdfsLabel LOCATED_IN "located in" [],
   Assertion.annotationLit rdfsLabel PART_OF "part of" [],
   Assertion.annotationLit rdfsLabel HAS_PART "has part" [],
   Assertion.annotationLit rdfsLabel SUCCESSOR "precedes" [],
   Assertion.annotationLit rdfsLabel PREDECESSOR "preceded by" [],
   Assertion.annotationLit rdfsLabel rdfsSeeAlso "see also" []]

/-- One full mapping run (`main` without the I/O boundary), starting from
the given residual collaborator state (`unhandled_xref_prefixes` content,
diagnostics stream, term list) — the real `main` starts all three empty. -/
def runMainFrom (P : Params) (version sourceUri : String) (rs : List Record)
    (j : List String × List Diag × List GTerm) : RunState × Option RunErr :=
  processRecords P
    { decls := initDecls, annots := initAnnots version sourceUri,
      unhandled := j.1, diags := j.2.1, terms := j.2.2 } rs

/-- One full mapping run of `main`: fresh empty set / streams. -/
def runMain (P : Params) (version sourceUri : String) (rs : List Record) :
    RunState × Option RunErr :=
  runMainFrom P version sourceUri rs ([], [], [])

/-- Rendering of one declaration, functional-syntax style. -/
def renderDecl : Decl → String
  | Decl.clsDecl u => "Declaration(Class(" ++ u ++ "))"
  | Decl.objProp u => "Declaration(ObjectProperty(" ++ u ++ "))"
  | Decl.namedInd u => "Declaration(NamedIndividual(" ++ u ++ "))"

/-- Rendering of one qualifier annotation. -/
def renderQual (q : String × String) : String :=
  "Annotation(" ++ q.1 ++ " " ++ q.2 ++ ")"

/-- Rendering of one assertion, functional-syntax style. -/
def renderAssertion : Assertion → String
  | Assertion.ontologyAnnot p v => "Annotation(" ++ p ++ " " ++ v ++ ")"
  | Assertion.annotationLit p s v quals =>
      "AnnotationAssertion(" ++ String.intercalate " " (quals.map renderQual) ++
        p ++ " " ++ s ++ " \"" ++ v ++ "\")"
  | Assertion.annotationRef p s o =>
      "AnnotationAssertion(" ++ p ++ " " ++ s ++ " " ++ o ++ ")"
  | Assertion.classAssertion c i => "ClassAssertion(" ++ c ++ " " ++ i ++ ")"
  | Assertion.objectPropertyAssertion p s o =>
      "ObjectPropertyAssertion(" ++ p ++ " " ++ s ++ " " ++ o ++ ")"

/-- `serialize()`: the document text is a deterministic function of the
declaration and axiom lists alone (`OntologyDocument(...)` then
`f"{doc}\n"`, lines 275-288). -/
def serializeDoc (decls : List Decl) (annots : List Assertion) : String :=
  String.intercalate "\n" (decls.map renderDecl ++ annots.map renderAssertion) ++ "\n"

/-- The primary output document of a run seeded with residual state `j`:
`some` text when the run completes, `none` when an uncaught exception
aborts it before `OFN_PATH.write_text`. -/
def mainOutputFrom (P : Params) (version sourceUri : String) (rs : List Record)
    (j : List String × List Diag × List GTerm) : Option String :=
  match runMainFrom P version sourceUri rs j with
  | (st, none) => some (serializeDoc st.decls st.annots)
  | (_, some _) => none

/-- The primary output document of a run of `main`. -/
def mainOutput (P : Params) (version sourceUri : String) (rs : List Record) :
    Option String :=
  mainOutputFrom P version sourceUri rs ([], [], [])

/-- The cities of a record, in address order (`geonames_city` present). -/
def recordCities (r : Record) : List GeoCity :=
  r.addresses.filterMap Address.geonames_city

-- Counting helpers used by the claims.

/-- Is this a `NamedIndividual` declaration of `u`? -/
def isNamedIndFor (u : String) : Decl → Bool
  | Decl.namedInd v => v == u
  | _ => false

/-- Number of `NamedIndividual(u)` declarations. -/
def namedIndCount (u : String) (l : List Decl) : Nat := l.countP (isNamedIndFor u)

/-- Is this an `rdfs:label` annotation assertion on subject `u`? -/
def isLabelFor (u : String) : Assertion → Bool
  | Assertion.annotationLit p s _ _ => p == rdfsLabel && s == u
  | _ => false

/-- Number of label assertions on subject `u`. -/
def labelCount (u : String) (l : List Assertion) : Nat := l.countP (isLabelFor u)

/-- Is this a class assertion `ClassAssertion(cls, u)`? -/
def isClassFor (cls u : String) : Assertion → Bool
  | Assertion.classAssertion c i => c == cls && i == u
  | _ => false

/-- Number of `ClassAssertion(cls, u)` axioms. -/
def classCount (cls u : String) (l : List Assertion) : Nat :=
  l.countP (isClassFor cls u)

/-- Is this a located-in fact with object `u`? -/
def isLocTo (u : String) : Assertion → Bool
  | Assertion.objectPropertyAssertion p _ o => p == LOCATED_IN && o == u
  | _ => false

/-- Number of located-in facts pointing at `u`. -/
def locCount (u : String) (l : List Assertion) : Nat := l.countP (isLocTo u)

/-- Is this a database-cross-reference annotation assertion? -/
def isXref : Assertion → Bool
  | Assertion.annotationLit p _ _ _ => p == oioHasDbXref
  | _ => false

/-- Number of cross-reference facts. -/
def xrefCount (l : List Assertion) : Nat := l.countP isXref

/-- Is this the unhandled-prefix diagnostic for scheme `q`? -/
def isSchemeDiag (q : String) : Diag → Bool
  | Diag.unhandledScheme s _ _ _ => s == q
  | _ => false

/-- Number of unhandled-prefix diagnostics for scheme `q`. -/
def schemeDiagCount (q : String) (l : List Diag) : Nat := l.countP (isSchemeDiag q)

/-- Is the error a `KeyError` (relationship lookup miss)? -/
def isKeyErr : Option RunErr → Bool
  | some (RunErr.keyError _) => true
  | _ => false

/-- The number of cross-reference facts one `external_ids` entry yields:
zero for "OrgRef" and for unresolvable prefixes, one per normalized
identifier otherwise. -/
def xrefWeight (P : Params) (e : String × PyStrList) : Nat :=
  if e.1 = "OrgRef" then 0
  else
    match P.normScheme e.1 with
    | none => 0
    | some _ => (pyToList e.2).length

/-- Total cross-reference facts a record's `external_ids` yield. -/
def xrefTotal (P : Params) (r : Record) : Nat :=
  (r.external_ids.map (xrefWeight P)).sum

/-- Number of city occurrences (address-nested city descriptors) of a record
whose individual is `u`. -/
def cityOcc (r : Record) (u : String) : Nat :=
  (recordCities r).countP (fun c => geonamesUri c.id == u)

-- Concrete collaborator behaviour and records used to instantiate the
-- theorems on closed inputs.

/-- Sample funowl behaviour: the name "BAD" raises `AssertionError`, the
name "TYBAD" raises `TypeError`, the cross-reference value "isni:FAIL"
raises `AssertionError`, everything else encodes fine. -/
def sampleLitErr (s : String) : Option LitErr :=
  if s = "BAD" then some LitErr.assertError
  else if s = "TYBAD" then some LitErr.typeError
  else if s = "isni:FAIL" then some LitErr.assertError
  else none

/-- Sample collaborator parameters; the scheme registry behaviour is
modelled from the spec's examples (`ISNI` normalizes to `isni`,
`FooBarBaz` is unknown). -/
def sampleParams : Params :=
  { litErr := sampleLitErr,
    normScheme := fun s => if s = "ISNI" then some "isni" else none,
    gnorm := fun s => s }

/-- A run state with everything empty. -/
def emptyState : RunState := ⟨[], [], [], [], []⟩

/-- The state after the organization declaration, the successful label +
class assertion pair, and the gilda term registration (lines 157-172,
success path). -/
def orgOkState (P : Params) (st : RunState) (r : Record) : RunState :=
  { st with
    decls := st.decls ++ [Decl.namedInd r.id],
    annots := st.annots ++
      [Assertion.annotationLit rdfsLabel r.id (nameRemap r.name) [],
       Assertion.classAssertion ORG_CLASS r.id],
    terms := st.terms ++ [mkTerm P (nameRemap r.name) (rorLuid r.id) (nameRemap r.name) "name"] }

/-- The spec's example record, used to instantiate C1 on closed input. -/
def c1Rec : Record :=
  { id := "https://ror.org/0abc1def2", name := "Test University",
    addresses := [⟨some ⟨123, "Testville"⟩⟩],
    relationships := [], aliases := ["TU"], acronyms := [],
    external_ids := [] }

/-- A record whose (unmapped) name "BAD" makes funowl assertion
construction raise, with no other content. -/
def c10Rec : Record :=
  { id := "https://ror.org/03bad9999", name := "BAD", addresses := [],
    relationships := [], aliases := [], acronyms := [], external_ids := [] }

/-- A record whose name fails assertion construction but which carries a
perfectly processable city, relationship, alias and external id. -/
def c2Rec : Record :=
  { id := "https://ror.org/02bbb2222", name := "BAD",
    addresses := [⟨some ⟨7, "Goodville"⟩⟩],
    relationships := [⟨"Related", "https://ror.org/0abc1def2"⟩],
    aliases := ["GG"], acronyms := [],
    external_ids := [("ISNI", PyStrList.str "0000 0001 2345 6789")] }

/-- A record with a relationship label outside the fixed vocabulary. -/
def c3Rec : Record :=
  { id := "https://ror.org/05ccc5555", name := "Test University",
    addresses := [],
    relationships := [⟨"Sibling", "https://ror.org/0abc1def2"⟩],
    aliases := [], acronyms := [], external_ids := [] }

/-- The spec's ISNI example, reduced to the cross-reference part. -/
def c6Rec : Record :=
  { id := "https://ror.org/0abc1def2", name := "Test University",
    addresses := [], relationships := [], aliases := [], acronyms := [],
    external_ids := [("ISNI", PyStrList.str "0000 0001 2345 6789")] }

/-- A record carrying an unknown scheme whose `all` value is the bare
string "X1". -/
def c9Rec : Record :=
  { id := "https://ror.org/09xyz9999", name := "Test University",
    addresses := [], relationships := [], aliases := [], acronyms := [],
    external_ids := [("FooBarBaz", PyStrList.str "X1")] }

/-- A record exercising every contained failure: a city whose label raises
`AssertionError`, a bad alias and a bad acronym — plus a valid
relationship. -/
def c5OkRec : Record :=
  { id := "https://ror.org/05aaa1111", name := "Test University",
    addresses := [⟨some ⟨3, "BAD"⟩⟩],
    relationships := [⟨"Parent", "https://ror.org/0abc1def2"⟩],
    aliases := ["BAD"], acronyms := ["BAD"],
    external_ids := [("ISNI", PyStrList.str "0000 0001 2345 6789")] }

/-- A record whose cross-reference literal "isni:FAIL" fails to construct:
the xref loop has no handler, so the failure escapes record processing. -/
def c5XrefRec : Record :=
  { id := "https://ror.org/05fff5555", name := "Test University",
    addresses := [], relationships := [], aliases := [], acronyms := [],
    external_ids := [("ISNI", PyStrList.str "FAIL")] }

/-- A record whose city label construction raises `TypeError`. -/
def c5Rec : Record :=
  { id := "https://ror.org/05eee5555", name := "Test University",
    addresses := [⟨some ⟨9, "TYBAD"⟩⟩],
    relationships := [], aliases := [], acronyms := [], external_ids := [] }

/-- The run invariant tying the unhandled-prefix diagnostics to the
`unhandled_xref_prefixes` set: scheme `p` has been reported exactly once
if it is in the set, and never otherwise. -/
def diagInv (p : String) (st : RunState) : Prop :=
  schemeDiagCount p st.diags = if p ∈ st.unhandled then 1 else 0

/-- The state `main` starts from: header + vocabulary, empty set/streams. -/
def initState (version sourceUri : String) : RunState :=
  { decls := initDecls, annots := initAnnots version sourceUri,
    unhandled := [], diags := [], terms := [] }

def c4RecA : Record :=
  { id := "https://ror.org/04aaa4444", name := "Test University",
    addresses := [], relationships := [], aliases := [], acronyms := [],
    external_ids := [("FooBarBaz", PyStrList.list ["X1", "X2"])] }

/-- A second organization using the same unknown scheme. -/
def c4RecB : Record :=
  { id := "https://ror.org/04bbb4444", name := "Other Institute",
    addresses := [], relationships := [], aliases := [], acronyms := [],
    external_ids := [("FooBarBaz", PyStrList.list ["Y9"])] }

/-- The contribution of one address to the per-occurrence city counts for
city individual `u`: one when it carries a city descriptor whose geonames
reference is `u`, zero otherwise. -/
def cityW (u : String) (a : Address) : Nat :=
  match a.geonames_city with
  | none => 0
  | some c => if geonamesUri c.id == u then 1 else 0

/-- An organization with the same city under two addresses. -/
def c7RecA : Record :=
  { id := "https://ror.org/07aaa7777", name := "Test University",
    addresses := [⟨some ⟨123, "Testville"⟩⟩, ⟨some ⟨123, "Testville"⟩⟩],
    relationships := [], aliases := [], acronyms := [], external_ids := [] }

/-- A second organization sharing the same city. -/
def c7RecB : Record :=
  { id := "https://ror.org/07bbb7777", name := "Other Institute",
    addresses := [⟨some ⟨123, "Testville"⟩⟩],
    relationships := [], aliases := [], acronyms := [], external_ids := [] }

/-- Two run states that agree on the ontology document parts (declarations
and axioms); the unhandled set, diagnostics and term list may differ. -/
def docEq (s t : RunState) : Prop := s.decls = t.decls ∧ s.annots = t.annots

-- Theorems.

example : nameRemap "\x27s-Hertogenbosch" = "Den Bosch" := by decide

example : nameRemap "Test University" = "Test University" := by decide

example : stripSpaces "0000 0001 2345 6789" = "0000000123456789" := by decide

example : rorLuid "https://ror.org/0abc1def2" = "0abc1def2" := by decide

example : rmapLookup "Child" = some HAS_PART := by decide

example : rmapLookup "Sibling" = none := by decide

example : pyIter (PyStrList.str "X1") = ["X", "1"] := by decide

-- Generic lemmas about the step-threading fold.

theorem foldSteps_nil {α} (f : RunState → α → RunState × Option RunErr) (st : RunState) :
    foldSteps f st [] = (st, none) := rfl

theorem foldSteps_cons {α} (f : RunState → α → RunState × Option RunErr) (st : RunState)
    (x : α) (xs : List α) :
    foldSteps f st (x :: xs) =
      match f st x with
      | (st1, none) => foldSteps f st1 xs
      | (st1, some e) => (st1, some e) := rfl

/-- A numeric projection of the state preserved by every step of the list is
preserved by the fold. -/
theorem foldSteps_natEq {α} {β : Type} (g : RunState → β)
    (f : RunState → α → RunState × Option RunErr) (l : List α)
    (h : ∀ st x, x ∈ l → g (f st x).1 = g st) :
    ∀ st, g (foldSteps f st l).1 = g st := by
  induction l with
  | nil => intro st; rfl
  | cons x xs ih =>
    intro st
    have hx := h st x (List.mem_cons_self x xs)
    rw [foldSteps_cons]
    cases hf : f st x with
    | mk st1 e =>
      rw [hf] at hx
      cases e with
      | none =>
        show g (foldSteps f st1 xs).1 = g st
        rw [ih (fun st' y hy => h st' y (List.mem_cons_of_mem x hy)) st1]
        exact hx
      | some e => exact hx

/-- A property of the state preserved by every step of the list is preserved
by the fold. -/
theorem foldSteps_pres {α} (Q : RunState → Prop)
    (f : RunState → α → RunState × Option RunErr) (l : List α)
    (h : ∀ st x, x ∈ l → Q st → Q (f st x).1) :
    ∀ st, Q st → Q (foldSteps f st l).1 := by
  induction l with
  | nil => intro st hq; exact hq
  | cons x xs ih =>
    intro st hq
    have hx := h st x (List.mem_cons_self x xs) hq
    rw [foldSteps_cons]
    cases hf : f st x with
    | mk st1 e =>
      rw [hf] at hx
      cases e with
      | none =>
        show Q (foldSteps f st1 xs).1
        exact ih (fun st' y hy => h st' y (List.mem_cons_of_mem x hy)) st1 hx
      | some e => exact hx

/-- If no step of the list raises, the fold does not raise. -/
theorem foldSteps_none {α} (f : RunState → α → RunState × Option RunErr) (l : List α)
    (h : ∀ st x, x ∈ l → (f st x).2 = none) :
    ∀ st, (foldSteps f st l).2 = none := by
  induction l with
  | nil => intro st; rfl
  | cons x xs ih =>
    intro st
    have hx := h st x (List.mem_cons_self x xs)
    rw [foldSteps_cons]
    cases hf : f st x with
    | mk st1 e =>
      rw [hf] at hx
      cases e with
      | none =>
        show (foldSteps f st1 xs).2 = none
        exact ih (fun st' y hy => h st' y (List.mem_cons_of_mem x hy)) st1
      | some e => exact absurd hx (by simp)

/-- Any error the fold raises was raised by one of its steps; so it lies in
any set containing all step errors. -/
theorem foldSteps_errSub {α} (Sp : RunErr → Prop)
    (f : RunState → α → RunState × Option RunErr) (l : List α)
    (h : ∀ st x, x ∈ l → ∀ e, (f st x).2 = some e → Sp e) :
    ∀ st e, (foldSteps f st l).2 = some e → Sp e := by
  induction l with
  | nil => intro st e he; simp [foldSteps_nil] at he
  | cons x xs ih =>
    intro st e he
    rw [foldSteps_cons] at he
    cases hf : f st x with
    | mk st1 e1 =>
      rw [hf] at he
      cases e1 with
      | none =>
        exact ih (fun st' y hy => h st' y (List.mem_cons_of_mem x hy)) st1 e he
      | some e1 =>
        have : e1 = e := by simpa using he
        subst this
        exact h st x (List.mem_cons_self x xs) e1 (by rw [hf])

/-- If every step never raises and adds `w x` to a numeric projection, the
fold adds the total weight. -/
theorem foldSteps_add {α} (g : RunState → Nat) (w : α → Nat)
    (f : RunState → α → RunState × Option RunErr) (l : List α)
    (h : ∀ st x, x ∈ l → (f st x).2 = none ∧ g (f st x).1 = g st + w x) :
    ∀ st, (foldSteps f st l).2 = none ∧
      g (foldSteps f st l).1 = g st + (l.map w).sum := by
  induction l with
  | nil => intro st; exact ⟨rfl, by simp [foldSteps_nil]⟩
  | cons x xs ih =>
    intro st
    have hx := h st x (List.mem_cons_self x xs)
    rw [foldSteps_cons]
    cases hf : f st x with
    | mk st1 e =>
      rw [hf] at hx
      cases e with
      | none =>
        have hrec := ih (fun st' y hy => h st' y (List.mem_cons_of_mem x hy)) st1
        refine ⟨hrec.1, ?_⟩
        show g (foldSteps f st1 xs).1 = g st + (List.map w (x :: xs)).sum
        rw [hrec.2, hx.2]
        simp [Nat.add_assoc]
      | some e => exact absurd hx.1 (by simp)

/-- If every step of the list that succeeds adds its weight to a numeric
projection, then a fold that succeeded overall added the total weight. -/
theorem foldSteps_add_of_none {α} (g : RunState → Nat) (w : α → Nat)
    (f : RunState → α → RunState × Option RunErr) (l : List α)
    (h : ∀ st x, x ∈ l → (f st x).2 = none → g (f st x).1 = g st + w x) :
    ∀ st, (foldSteps f st l).2 = none →
      g (foldSteps f st l).1 = g st + (l.map w).sum := by
  induction l with
  | nil => intro st _; simp [foldSteps_nil]
  | cons x xs ih =>
    intro st hnone
    rw [foldSteps_cons] at hnone ⊢
    cases hf : f st x with
    | mk st1 e1 =>
      rw [hf] at hnone
      cases e1 with
      | some e => exact Option.noConfusion hnone
      | none =>
        have hx := h st x (List.mem_cons_self x xs) (by rw [hf])
        rw [hf] at hx
        have hnone' : (foldSteps f st1 xs).2 = none := hnone
        show g (foldSteps f st1 xs).1 = g st + (List.map w (x :: xs)).sum
        rw [ih (fun st' y hy => h st' y (List.mem_cons_of_mem x hy)) st1 hnone', hx]
        simp [Nat.add_assoc]

theorem sum_ones {α} (l : List α) : (l.map (fun _ => 1)).sum = l.length := by
  induction l with
  | nil => rfl
  | cons x xs ih => simp [ih, Nat.add_comm]

/-- Steps that are bisimilar with respect to a state relation, and raise
identically, fold to bisimilar results with identical errors. -/
theorem foldSteps_bisim {α} (R : RunState → RunState → Prop)
    (f : RunState → α → RunState × Option RunErr) (l : List α)
    (h : ∀ s t x, x ∈ l → R s t →
      R (f s x).1 (f t x).1 ∧ (f s x).2 = (f t x).2) :
    ∀ s t, R s t →
      R (foldSteps f s l).1 (foldSteps f t l).1 ∧
        (foldSteps f s l).2 = (foldSteps f t l).2 := by
  induction l with
  | nil => intro s t hr; exact ⟨hr, rfl⟩
  | cons x xs ih =>
    intro s t hr
    have hx := h s t x (List.mem_cons_self x xs) hr
    rw [foldSteps_cons, foldSteps_cons]
    cases hf : f s x with
    | mk s1 e1 =>
      cases hg : f t x with
      | mk t1 e2 =>
        rw [hf, hg] at hx
        have he : e1 = e2 := hx.2
        subst he
        cases e1 with
        | none =>
          exact ih (fun s' t' y hy => h s' t' y (List.mem_cons_of_mem x hy)) s1 t1 hx.1
        | some e => exact ⟨hx.1, rfl⟩

/-- Appending elements on which a predicate is false does not change the
count. -/
theorem countP_append_zero {α} (p : α → Bool) (l d : List α)
    (h : ∀ x ∈ d, p x = false) : (l ++ d).countP p = l.countP p := by
  rw [List.countP_append]
  have : d.countP p = 0 := List.countP_eq_zero.mpr (by intro a ha; simp [h a ha])
  omega

-- Per-step lemmas: error behaviour, field deltas.

theorem cityStep_err_none (P : Params) (o : String) (st : RunState) (a : Address)
    (h : ∀ c, a.geonames_city = some c →
      P.litErr (nameRemap c.city) ≠ some LitErr.typeError) :
    (cityStep P o st a).2 = none := by
  unfold cityStep
  cases hc : a.geonames_city with
  | none => rfl
  | some c =>
    cases hl : P.litErr (nameRemap c.city) with
    | none => simp [hl]
    | some e =>
      cases e with
      | typeError => exact absurd hl (h c hc)
      | assertError => simp [hl]

theorem cityStep_err_sub (P : Params) (o : String) (st : RunState) (a : Address)
    (e : RunErr) (h : (cityStep P o st a).2 = some e) :
    e = RunErr.uncaught LitErr.typeError := by
  cases hc : a.geonames_city with
  | none => simp [cityStep, hc] at h
  | some c =>
    cases hl : P.litErr (nameRemap c.city) with
    | none => simp [cityStep, hc, hl] at h
    | some le =>
      cases le with
      | typeError =>
        simp only [cityStep, hc, hl, Option.some.injEq] at h
        exact h.symm
      | assertError => simp [cityStep, hc, hl] at h

theorem relStep_err_none (o : String) (st : RunState) (rel : Relationship)
    (h : (rmapLookup rel.type).isSome = true) :
    (relStep o st rel).2 = none := by
  unfold relStep
  cases hl : rmapLookup rel.type with
  | none => rw [hl] at h; simp at h
  | some q => simp

theorem relStep_err_sub (o : String) (st : RunState) (rel : Relationship)
    (e : RunErr) (h : (relStep o st rel).2 = some e) :
    ∃ k, e = RunErr.keyError k := by
  unfold relStep at h
  cases hl : rmapLookup rel.type with
  | none => rw [hl] at h; exact ⟨rel.type, by simpa using h.symm⟩
  | some q => rw [hl] at h; exact absurd h (by simp)

theorem synStep_err (P : Params) (o n luid : String) (st : RunState) (s : String) :
    (synStep P o n luid st s).2 = none := by
  unfold synStep
  cases P.litErr s <;> simp

theorem acrStep_err (P : Params) (o n : String) (st : RunState) (s : String) :
    (acrStep P o n st s).2 = none := by
  unfold acrStep
  cases P.litErr s <;> simp

theorem xrefIdStep_err_sub (P : Params) (o np : String) (st : RunState)
    (i : String) (e : RunErr) (h : (xrefIdStep P o np st i).2 = some e) :
    ∃ le, e = RunErr.uncaught le := by
  cases hl : P.litErr (curieToStr np (stripSpaces i)) with
  | some le =>
    simp only [xrefIdStep, hl, Option.some.injEq] at h
    exact ⟨le, h.symm⟩
  | none => simp [xrefIdStep, hl] at h

theorem xrefIdStep_err_none (P : Params) (o np : String) (st : RunState)
    (i : String) (h : (P.litErr (curieToStr np (stripSpaces i))).isNone = true) :
    (xrefIdStep P o np st i).2 = none := by
  cases hl : P.litErr (curieToStr np (stripSpaces i)) with
  | some le => rw [hl] at h; simp at h
  | none => simp [xrefIdStep, hl]

theorem xrefIdStep_decls (P : Params) (o np : String) (st : RunState) (i : String) :
    (xrefIdStep P o np st i).1.decls = st.decls := by
  cases hl : P.litErr (curieToStr np (stripSpaces i)) <;> simp [xrefIdStep, hl]

theorem xrefIdStep_unhandled (P : Params) (o np : String) (st : RunState) (i : String) :
    (xrefIdStep P o np st i).1.unhandled = st.unhandled := by
  cases hl : P.litErr (curieToStr np (stripSpaces i)) <;> simp [xrefIdStep, hl]

theorem xrefIdStep_diags (P : Params) (o np : String) (st : RunState) (i : String) :
    (xrefIdStep P o np st i).1.diags = st.diags := by
  cases hl : P.litErr (curieToStr np (stripSpaces i)) <;> simp [xrefIdStep, hl]

theorem xrefIdStep_terms (P : Params) (o np : String) (st : RunState) (i : String) :
    (xrefIdStep P o np st i).1.terms = st.terms := by
  cases hl : P.litErr (curieToStr np (stripSpaces i)) <;> simp [xrefIdStep, hl]

theorem xrefStep_err_none (P : Params) (o n : String) (st : RunState)
    (e : String × PyStrList) (h : xrefEntryOk P e = true) :
    (xrefStep P o n st e).2 = none := by
  by_cases h1 : e.1 = "OrgRef"
  · simp [xrefStep, h1]
  · cases h2 : P.normScheme e.1 with
    | none => by_cases h3 : e.1 ∈ st.unhandled <;> simp [xrefStep, h1, h2, h3]
    | some np =>
      simp only [xrefStep, if_neg h1, h2]
      unfold xrefEntryOk at h
      rw [if_neg h1, h2] at h
      refine foldSteps_none _ _ ?_ st
      intro st' i hi
      exact xrefIdStep_err_none P o np st' i (List.all_eq_true.mp h i hi)

theorem xrefStep_err_sub (P : Params) (o n : String) (st : RunState)
    (e : String × PyStrList) (er : RunErr) (h : (xrefStep P o n st e).2 = some er) :
    ∃ le, er = RunErr.uncaught le := by
  by_cases h1 : e.1 = "OrgRef"
  · simp [xrefStep, h1] at h
  · cases h2 : P.normScheme e.1 with
    | none => by_cases h3 : e.1 ∈ st.unhandled <;> simp [xrefStep, h1, h2, h3] at h
    | some np =>
      simp only [xrefStep, if_neg h1, h2] at h
      exact foldSteps_errSub (fun x => ∃ le, x = RunErr.uncaught le)
        (xrefIdStep P o np) (pyToList e.2)
        (fun st' i _ er' h' => xrefIdStep_err_sub P o np st' i er' h') st er h

-- Field-equality lemmas: which state fields each step leaves untouched.

theorem cityStep_unhandled (P : Params) (o : String) (st : RunState) (a : Address) :
    (cityStep P o st a).1.unhandled = st.unhandled := by
  cases hc : a.geonames_city with
  | none => simp [cityStep, hc]
  | some c =>
    cases hl : P.litErr (nameRemap c.city) with
    | none => simp [cityStep, hc, hl]
    | some le => cases le <;> simp [cityStep, hc, hl]

theorem cityStep_terms (P : Params) (o : String) (st : RunState) (a : Address) :
    (cityStep P o st a).1.terms = st.terms := by
  cases hc : a.geonames_city with
  | none => simp [cityStep, hc]
  | some c =>
    cases hl : P.litErr (nameRemap c.city) with
    | none => simp [cityStep, hc, hl]
    | some le => cases le <;> simp [cityStep, hc, hl]

theorem relStep_decls (o : String) (st : RunState) (rel : Relationship) :
    (relStep o st rel).1.decls = st.decls := by
  cases hl : rmapLookup rel.type <;> simp [relStep, hl]

theorem relStep_unhandled (o : String) (st : RunState) (rel : Relationship) :
    (relStep o st rel).1.unhandled = st.unhandled := by
  cases hl : rmapLookup rel.type <;> simp [relStep, hl]

theorem relStep_diags (o : String) (st : RunState) (rel : Relationship) :
    (relStep o st rel).1.diags = st.diags := by
  cases hl : rmapLookup rel.type <;> simp [relStep, hl]

theorem relStep_terms (o : String) (st : RunState) (rel : Relationship) :
    (relStep o st rel).1.terms = st.terms := by
  cases hl : rmapLookup rel.type <;> simp [relStep, hl]

theorem synStep_decls (P : Params) (o n luid : String) (st : RunState) (s : String) :
    (synStep P o n luid st s).1.decls = st.decls := by
  cases hl : P.litErr s <;> simp [synStep, hl]

theorem synStep_unhandled (P : Params) (o n luid : String) (st : RunState) (s : String) :
    (synStep P o n luid st s).1.unhandled = st.unhandled := by
  cases hl : P.litErr s <;> simp [synStep, hl]

theorem acrStep_decls (P : Params) (o n : String) (st : RunState) (s : String) :
    (acrStep P o n st s).1.decls = st.decls := by
  cases hl : P.litErr s <;> simp [acrStep, hl]

theorem acrStep_unhandled (P : Params) (o n : String) (st : RunState) (s : String) :
    (acrStep P o n st s).1.unhandled = st.unhandled := by
  cases hl : P.litErr s <;> simp [acrStep, hl]

theorem xrefStep_decls (P : Params) (o n : String) (st : RunState)
    (e : String × PyStrList) : (xrefStep P o n st e).1.decls = st.decls := by
  by_cases h1 : e.1 = "OrgRef"
  · simp [xrefStep, h1]
  · cases h2 : P.normScheme e.1 with
    | none =>
      by_cases h3 : e.1 ∈ st.unhandled <;> simp [xrefStep, h1, h2, h3]
    | some np =>
      simp only [xrefStep, if_neg h1, h2]
      exact foldSteps_natEq (fun s => s.decls) (xrefIdStep P o np) (pyToList e.2)
        (fun st' i _ => xrefIdStep_decls P o np st' i) st

theorem xrefStep_terms (P : Params) (o n : String) (st : RunState)
    (e : String × PyStrList) : (xrefStep P o n st e).1.terms = st.terms := by
  by_cases h1 : e.1 = "OrgRef"
  · simp [xrefStep, h1]
  · cases h2 : P.normScheme e.1 with
    | none =>
      by_cases h3 : e.1 ∈ st.unhandled <;> simp [xrefStep, h1, h2, h3]
    | some np =>
      simp only [xrefStep, if_neg h1, h2]
      exact foldSteps_natEq (fun s => s.terms) (xrefIdStep P o np) (pyToList e.2)
        (fun st' i _ => xrefIdStep_terms P o np st' i) st

-- Count-preservation lemmas over `annots`, parameterized by the counting
-- predicate, with its falseness on the shapes the step can append.

theorem cityStep_countA (P : Params) (o : String) (st : RunState) (a : Address)
    (pr : Assertion → Bool)
    (h1 : ∀ c, a.geonames_city = some c →
      pr (Assertion.objectPropertyAssertion LOCATED_IN o (geonamesUri c.id)) = false)
    (h2 : ∀ c, a.geonames_city = some c →
      pr (Assertion.annotationLit rdfsLabel (geonamesUri c.id) (nameRemap c.city) []) = false)
    (h3 : ∀ c, a.geonames_city = some c →
      pr (Assertion.classAssertion CITY_CLASS (geonamesUri c.id)) = false) :
    ((cityStep P o st a).1.annots).countP pr = st.annots.countP pr := by
  cases hc : a.geonames_city with
  | none => simp [cityStep, hc]
  | some c =>
    cases hl : P.litErr (nameRemap c.city) with
    | none =>
      simp only [cityStep, hc, hl]
      refine countP_append_zero pr st.annots _ ?_
      intro x hx
      simp only [List.mem_cons, List.not_mem_nil, or_false] at hx
      rcases hx with rfl | rfl | rfl
      · exact h1 c hc
      · exact h2 c hc
      · exact h3 c hc
    | some le => cases le <;> simp [cityStep, hc, hl]

theorem relStep_countA (o : String) (st : RunState) (rel : Relationship)
    (pr : Assertion → Bool)
    (h : ∀ q tg, pr (Assertion.annotationRef q o tg) = false) :
    ((relStep o st rel).1.annots).countP pr = st.annots.countP pr := by
  cases hl : rmapLookup rel.type with
  | none => simp [relStep, hl]
  | some q =>
    simp only [relStep, hl]
    refine countP_append_zero pr st.annots _ ?_
    intro x hx
    simp only [List.mem_singleton] at hx
    subst hx
    exact h q rel.id

theorem synStep_countA (P : Params) (o n luid : String) (st : RunState) (s : String)
    (pr : Assertion → Bool)
    (h : pr (Assertion.annotationLit oioHasExactSynonym o s []) = false) :
    ((synStep P o n luid st s).1.annots).countP pr = st.annots.countP pr := by
  cases hl : P.litErr s with
  | none =>
    simp only [synStep, hl]
    refine countP_append_zero pr st.annots _ ?_
    intro x hx
    simp only [List.mem_singleton] at hx
    subst hx
    exact h
  | some le => simp [synStep, hl]

theorem acrStep_countA (P : Params) (o n : String) (st : RunState) (s : String)
    (pr : Assertion → Bool)
    (h : pr (Assertion.annotationLit oioHasExactSynonym o s
      [(oioSynonymType, omoAcronym)]) = false) :
    ((acrStep P o n st s).1.annots).countP pr = st.annots.countP pr := by
  cases hl : P.litErr s with
  | none =>
    simp only [acrStep, hl]
    refine countP_append_zero pr st.annots _ ?_
    intro x hx
    simp only [List.mem_singleton] at hx
    subst hx
    exact h
  | some le => simp [acrStep, hl]

theorem xrefIdStep_countA (P : Params) (o np : String) (st : RunState)
    (i : String) (pr : Assertion → Bool)
    (h : ∀ v, pr (Assertion.annotationLit oioHasDbXref o v []) = false) :
    ((xrefIdStep P o np st i).1.annots).countP pr = st.annots.countP pr := by
  cases hl : P.litErr (curieToStr np (stripSpaces i)) with
  | some le => simp [xrefIdStep, hl]
  | none =>
    simp only [xrefIdStep, hl]
    refine countP_append_zero pr st.annots _ ?_
    intro x hx
    simp only [List.mem_singleton] at hx
    subst hx
    exact h _

theorem xrefStep_countA (P : Params) (o n : String) (st : RunState)
    (e : String × PyStrList) (pr : Assertion → Bool)
    (h : ∀ v, pr (Assertion.annotationLit oioHasDbXref o v []) = false) :
    ((xrefStep P o n st e).1.annots).countP pr = st.annots.countP pr := by
  by_cases h1 : e.1 = "OrgRef"
  · simp [xrefStep, h1]
  · cases h2 : P.normScheme e.1 with
    | none =>
      by_cases h3 : e.1 ∈ st.unhandled <;> simp [xrefStep, h1, h2, h3]
    | some np =>
      simp only [xrefStep, h1, h2, if_neg h1]
      exact foldSteps_natEq (fun s => s.annots.countP pr) (xrefIdStep P o np)
        (pyToList e.2) (fun st' i _ => xrefIdStep_countA P o np st' i pr h) st

-- Record-level helper lemmas.

theorem beq_city_org : (CITY_CLASS == ORG_CLASS) = false := by decide

theorem beq_org_city : (ORG_CLASS == CITY_CLASS) = false := by decide

theorem beq_syn_label : (oioHasExactSynonym == rdfsLabel) = false := by decide

theorem beq_xref_label : (oioHasDbXref == rdfsLabel) = false := by decide

theorem beq_label_xref : (rdfsLabel == oioHasDbXref) = false := by decide

theorem beq_syn_xref : (oioHasExactSynonym == oioHasDbXref) = false := by decide

theorem processRecord_name_ok (P : Params) (st : RunState) (r : Record)
    (hname : P.litErr (nameRemap r.name) = none) :
    processRecord P st r =
      match foldSteps (cityStep P r.id) (orgOkState P st r) r.addresses with
      | (st3, some e) => (st3, some e)
      | (st3, none) =>
        match foldSteps (relStep r.id) st3 r.relationships with
        | (st4, some e) => (st4, some e)
        | (st4, none) =>
          match foldSteps (synStep P r.id (nameRemap r.name) (rorLuid r.id)) st4 r.aliases with
          | (st5, some e) => (st5, some e)
          | (st5, none) =>
            match foldSteps (acrStep P r.id (nameRemap r.name)) st5 r.acronyms with
            | (st6, some e) => (st6, some e)
            | (st6, none) =>
                foldSteps (xrefStep P r.id (nameRemap r.name)) st6 r.external_ids := by
  simp [processRecord, hname, orgOkState]

theorem processRecord_name_bad (P : Params) (st : RunState) (r : Record)
    (e : LitErr) (hname : P.litErr (nameRemap r.name) = some e) :
    processRecord P st r =
      ({ st with
          decls := st.decls ++ [Decl.namedInd r.id],
          diags := st.diags ++ [Diag.failedOrg (nameRemap r.name) r.id] }, none) := by
  simp [processRecord, hname]

/-- In the success-name case, the count of a predicate over `annots` after
one record is the count before plus the contributions of the organization
label and class assertion, provided the predicate is false on every other
shape the record's loops can append. -/
theorem processRecord_countA (P : Params) (st : RunState) (r : Record)
    (pr : Assertion → Bool)
    (hname : P.litErr (nameRemap r.name) = none)
    (hc1 : ∀ c ∈ recordCities r,
      pr (Assertion.objectPropertyAssertion LOCATED_IN r.id (geonamesUri c.id)) = false)
    (hc2 : ∀ c ∈ recordCities r,
      pr (Assertion.annotationLit rdfsLabel (geonamesUri c.id) (nameRemap c.city) []) = false)
    (hc3 : ∀ c ∈ recordCities r,
      pr (Assertion.classAssertion CITY_CLASS (geonamesUri c.id)) = false)
    (hrel : ∀ q tg, pr (Assertion.annotationRef q r.id tg) = false)
    (hsyn : ∀ s, pr (Assertion.annotationLit oioHasExactSynonym r.id s []) = false)
    (hacr : ∀ s, pr (Assertion.annotationLit oioHasExactSynonym r.id s
      [(oioSynonymType, omoAcronym)]) = false)
    (hxref : ∀ v, pr (Assertion.annotationLit oioHasDbXref r.id v []) = false) :
    ((processRecord P st r).1.annots).countP pr =
      st.annots.countP pr +
        (if pr (Assertion.annotationLit rdfsLabel r.id (nameRemap r.name) []) then 1 else 0) +
        (if pr (Assertion.classAssertion ORG_CLASS r.id) then 1 else 0) := by
  have h2 : (orgOkState P st r).annots.countP pr =
      st.annots.countP pr +
        (if pr (Assertion.annotationLit rdfsLabel r.id (nameRemap r.name) []) then 1 else 0) +
        (if pr (Assertion.classAssertion ORG_CLASS r.id) then 1 else 0) := by
    simp [orgOkState, List.countP_append, List.countP_cons]
    omega
  rw [processRecord_name_ok P st r hname]
  have hcity : ∀ st' a, a ∈ r.addresses →
      ((cityStep P r.id st' a).1.annots).countP pr = st'.annots.countP pr := by
    intro st' a ha
    refine cityStep_countA P r.id st' a pr ?_ ?_ ?_ <;>
      intro c hgc <;>
      [exact hc1 c (List.mem_filterMap.mpr ⟨a, ha, hgc⟩);
       exact hc2 c (List.mem_filterMap.mpr ⟨a, ha, hgc⟩);
       exact hc3 c (List.mem_filterMap.mpr ⟨a, ha, hgc⟩)]
  have hcf := foldSteps_natEq (fun s => s.annots.countP pr) (cityStep P r.id)
    r.addresses hcity (orgOkState P st r)
  cases h3 : foldSteps (cityStep P r.id) (orgOkState P st r) r.addresses with
  | mk st3 e3 =>
    rw [h3] at hcf
    cases e3 with
    | some e =>
      simp only [h3]
      exact hcf.trans h2
    | none =>
      simp only [h3]
      have hrf := foldSteps_natEq (fun s => s.annots.countP pr) (relStep r.id)
        r.relationships (fun st' x _ => relStep_countA r.id st' x pr hrel) st3
      cases h4 : foldSteps (relStep r.id) st3 r.relationships with
      | mk st4 e4 =>
        rw [h4] at hrf
        cases e4 with
        | some e =>
          simp only [h4]
          exact hrf.trans (hcf.trans h2)
        | none =>
          simp only [h4]
          have hsf := foldSteps_natEq (fun s => s.annots.countP pr)
            (synStep P r.id (nameRemap r.name) (rorLuid r.id))
            r.aliases (fun st' x _ =>
              synStep_countA P r.id (nameRemap r.name) (rorLuid r.id) st' x pr (hsyn x)) st4
          cases h5 : foldSteps (synStep P r.id (nameRemap r.name) (rorLuid r.id)) st4 r.aliases with
          | mk st5 e5 =>
            rw [h5] at hsf
            cases e5 with
            | some e =>
              simp only [h5]
              exact hsf.trans (hrf.trans (hcf.trans h2))
            | none =>
              simp only [h5]
              have haf := foldSteps_natEq (fun s => s.annots.countP pr)
                (acrStep P r.id (nameRemap r.name))
                r.acronyms (fun st' x _ =>
                  acrStep_countA P r.id (nameRemap r.name) st' x pr (hacr x)) st5
              cases h6 : foldSteps (acrStep P r.id (nameRemap r.name)) st5 r.acronyms with
              | mk st6 e6 =>
                rw [h6] at haf
                cases e6 with
                | some e =>
                  simp only [h6]
                  exact haf.trans (hsf.trans (hrf.trans (hcf.trans h2)))
                | none =>
                  simp only [h6]
                  have hxf := foldSteps_natEq (fun s => s.annots.countP pr)
                    (xrefStep P r.id (nameRemap r.name))
                    r.external_ids (fun st' x _ =>
                      xrefStep_countA P r.id (nameRemap r.name) st' x pr hxref) st6
                  exact hxf.trans (haf.trans (hsf.trans (hrf.trans (hcf.trans h2))))

theorem processRecords_cons_ok (P : Params) (st : RunState) (r : Record)
    (rs : List Record) (h : (processRecord P st r).2 = none) :
    processRecords P st (r :: rs) = processRecords P (processRecord P st r).1 rs := by
  unfold processRecords
  rw [foldSteps_cons]
  cases hpr : processRecord P st r with
  | mk st1 e1 =>
    rw [hpr] at h
    simp only [] at h
    subst h
    rfl

theorem processRecords_single (P : Params) (st : RunState) (r : Record) :
    (processRecords P st [r]).1 = (processRecord P st r).1 := by
  unfold processRecords
  rw [foldSteps_cons]
  cases hpr : processRecord P st r with
  | mk st1 e1 => cases e1 <;> simp [foldSteps_nil]

/-- C1: for every input record whose (remapped) name yields a valid text
literal, processing the record appends exactly one `rdfs:label` assertion
and exactly one `ClassAssertion(ORG_CLASS, ·)` for the organization's
identity — the record `id` used verbatim as the individual's reference —
and processing the same record a second time in the same run appends a
second copy of each: there is no deduplication of organization assertions.
(The city-uri side condition rules out a city individual accidentally
sharing the organization's reference.) -/
theorem C1_org_assertions_once_then_duplicated (P : Params) (st : RunState)
    (r : Record)
    (hname : P.litErr (nameRemap r.name) = none)
    (hcity : ∀ c ∈ recordCities r, geonamesUri c.id ≠ r.id) :
    labelCount r.id (processRecord P st r).1.annots = labelCount r.id st.annots + 1
    ∧ classCount ORG_CLASS r.id (processRecord P st r).1.annots
        = classCount ORG_CLASS r.id st.annots + 1
    ∧ ((processRecord P st r).2 = none →
        labelCount r.id (processRecords P st [r, r]).1.annots
            = labelCount r.id st.annots + 2
        ∧ classCount ORG_CLASS r.id (processRecords P st [r, r]).1.annots
            = classCount ORG_CLASS r.id st.annots + 2) := by
  have keyL : ∀ s : RunState,
      labelCount r.id (processRecord P s r).1.annots = labelCount r.id s.annots + 1 := by
    intro s
    have h := processRecord_countA P s r (isLabelFor r.id) hname
      (fun c _ => rfl)
      (fun c hc => by
        simp only [isLabelFor, beq_self_eq_true, Bool.true_and]
        exact beq_eq_false_iff_ne.mpr (hcity c hc))
      (fun c _ => rfl)
      (fun q tg => rfl)
      (fun sy => by simp [isLabelFor, beq_syn_label])
      (fun sy => by simp [isLabelFor, beq_syn_label])
      (fun v => by simp [isLabelFor, beq_xref_label])
    simpa [labelCount, isLabelFor] using h
  have keyC : ∀ s : RunState,
      classCount ORG_CLASS r.id (processRecord P s r).1.annots
        = classCount ORG_CLASS r.id s.annots + 1 := by
    intro s
    have h := processRecord_countA P s r (isClassFor ORG_CLASS r.id) hname
      (fun c _ => rfl)
      (fun c _ => rfl)
      (fun c _ => by simp [isClassFor, beq_city_org])
      (fun q tg => rfl)
      (fun sy => rfl)
      (fun sy => rfl)
      (fun v => rfl)
    simpa [classCount, isClassFor] using h
  refine ⟨keyL st, keyC st, fun hsucc => ?_⟩
  rw [processRecords_cons_ok P st r [r] hsucc, processRecords_single]
  constructor
  · rw [keyL _, keyL st]
  · rw [keyC _, keyC st]

theorem C1_witness :
    labelCount "https://ror.org/0abc1def2"
        (processRecords sampleParams emptyState [c1Rec, c1Rec]).1.annots = 2
    ∧ classCount ORG_CLASS "https://ror.org/0abc1def2"
        (processRecords sampleParams emptyState [c1Rec, c1Rec]).1.annots = 2 := by
  have h := C1_org_assertions_once_then_duplicated sampleParams emptyState c1Rec
    (by decide) (by decide)
  have h2 := h.2.2 (by decide)
  constructor
  · have := h2.1
    simpa [emptyState, labelCount] using this
  · have := h2.2
    simpa [emptyState, classCount] using this

theorem processRecords_single_err (P : Params) (st : RunState) (r : Record) :
    (processRecords P st [r]).2 = (processRecord P st r).2 := by
  unfold processRecords
  rw [foldSteps_cons]
  cases hpr : processRecord P st r with
  | mk st1 e1 => cases e1 <;> simp [foldSteps_nil]

/-- C10: the organization's `NamedIndividual` declaration is appended before
the label/class assertion attempt, so when the label/class construction of
a record fails, the processed state still retains that declaration while
gaining no label assertion and no class assertion for the organization —
the assertion failure is not atomic with the declaration. -/
theorem C10_declaration_precedes_assertions (P : Params) (st : RunState)
    (r : Record) (e : LitErr)
    (hname : P.litErr (nameRemap r.name) = some e) :
    (processRecord P st r).1.decls = st.decls ++ [Decl.namedInd r.id]
    ∧ labelCount r.id (processRecord P st r).1.annots = labelCount r.id st.annots
    ∧ classCount ORG_CLASS r.id (processRecord P st r).1.annots
        = classCount ORG_CLASS r.id st.annots := by
  rw [processRecord_name_bad P st r e hname]
  exact ⟨rfl, rfl, rfl⟩

theorem C10_witness :
    (processRecord sampleParams emptyState c10Rec).1.decls
      = [Decl.namedInd "https://ror.org/03bad9999"] := by
  have h := C10_declaration_precedes_assertions sampleParams emptyState c10Rec
    LitErr.assertError (by decide)
  simpa [emptyState] using h.1

/-- C2 counterexample: the claim says that when the organization's
label/class assertion construction throws, the record's city, relationship,
synonym and cross-reference facts are still attempted. On `c2Rec` — whose
name fails but whose city name encodes fine, whose relationship type is in
the vocabulary and whose external id resolves — processing emits no
assertion whatsoever: the remaining per-organization facts were skipped,
refuting the claim. -/
theorem C2_counterexample :
    sampleParams.litErr (nameRemap c2Rec.name) = some LitErr.assertError
    ∧ sampleParams.litErr (nameRemap "Goodville") = none
    ∧ rmapLookup "Related" = some rdfsSeeAlso
    ∧ sampleParams.normScheme "ISNI" = some "isni"
    ∧ (processRecord sampleParams emptyState c2Rec).1.annots = [] := by decide

/-- C2 (amended): when the label/class assertion construction of a record
throws, the source executes `continue`: the organization's city,
relationship, synonym/acronym and cross-reference processing is skipped
entirely — no assertion of any kind, no unhandled-prefix bookkeeping, no
term registration — leaving only the individual declaration and one
diagnostic, and the run proceeds with the next record. -/
theorem C2_amended_label_failure_skips_record (P : Params) (st : RunState)
    (r : Record) (rs : List Record) (e : LitErr)
    (hname : P.litErr (nameRemap r.name) = some e) :
    (processRecord P st r).1.annots = st.annots
    ∧ (processRecord P st r).1.unhandled = st.unhandled
    ∧ (processRecord P st r).1.terms = st.terms
    ∧ (processRecord P st r).1.decls = st.decls ++ [Decl.namedInd r.id]
    ∧ (processRecord P st r).1.diags = st.diags ++ [Diag.failedOrg (nameRemap r.name) r.id]
    ∧ (processRecord P st r).2 = none
    ∧ processRecords P st (r :: rs) = processRecords P (processRecord P st r).1 rs := by
  have hb := processRecord_name_bad P st r e hname
  have hcons := processRecords_cons_ok P st r rs (by rw [hb])
  rw [hb] at hcons
  rw [hb]
  exact ⟨rfl, rfl, rfl, rfl, rfl, rfl, hcons⟩

theorem C2_witness :
    (processRecord sampleParams emptyState c2Rec).2 = none :=
  (C2_amended_label_failure_skips_record sampleParams emptyState c2Rec []
    LitErr.assertError (by decide)).2.2.2.2.2.1

/-- C3: the relationship-type vocabulary is exactly the five fixed labels:
each maps totally to its fixed relation term, and any label outside the
vocabulary makes the lookup miss, so processing a record carrying it
raises an uncaught `KeyError` and the run terminates with no output
document written. -/
theorem C3_relationship_lookup_total_or_fatal (t : String)
    (ht : t ∉ ["Related", "Child", "Parent", "Predecessor", "Successor"])
    (P : Params) (v u tgt : String) (r : Record)
    (hname : P.litErr (nameRemap r.name) = none)
    (haddr : r.addresses = [])
    (hrel : r.relationships = [⟨t, tgt⟩]) :
    rmapLookup t = none
    ∧ rmapLookup "Related" = some rdfsSeeAlso
    ∧ rmapLookup "Child" = some HAS_PART
    ∧ rmapLookup "Parent" = some PART_OF
    ∧ rmapLookup "Predecessor" = some PREDECESSOR
    ∧ rmapLookup "Successor" = some SUCCESSOR
    ∧ (runMain P v u [r]).2 = some (RunErr.keyError t)
    ∧ mainOutput P v u [r] = none := by
  simp only [List.mem_cons, List.not_mem_nil, or_false, not_or] at ht
  obtain ⟨h1, h2, h3, h4, h5⟩ := ht
  have hfind : RMAP.find? (fun q => q.1 == t) = none := by
    rw [List.find?_eq_none]
    intro q hq
    simp only [RMAP, List.mem_cons, List.not_mem_nil, or_false] at hq
    rcases hq with rfl | rfl | rfl | rfl | rfl <;>
      simp only [beq_iff_eq] <;>
      [exact fun hh => h1 hh.symm; exact fun hh => h2 hh.symm;
       exact fun hh => h3 hh.symm; exact fun hh => h4 hh.symm;
       exact fun hh => h5 hh.symm]
  have hlook : rmapLookup t = none := by simp [rmapLookup, hfind]
  have hrec : ∀ st : RunState,
      (processRecord P st r).2 = some (RunErr.keyError t) := by
    intro st
    rw [processRecord_name_ok P st r hname, haddr, hrel]
    simp [foldSteps_nil, foldSteps_cons, relStep, hlook]
  have hrun : (runMainFrom P v u [r] ([], [], [])).2
      = some (RunErr.keyError t) := by
    show (processRecords P _ [r]).2 = _
    rw [processRecords_single_err]
    exact hrec _
  refine ⟨hlook, by decide, by decide, by decide, by decide, by decide, hrun, ?_⟩
  unfold mainOutput mainOutputFrom
  cases hrm : runMainFrom P v u [r] ([], [], []) with
  | mk stf ef =>
    rw [hrm] at hrun
    simp only [] at hrun
    subst hrun
    rfl

theorem C3_witness :
    mainOutput sampleParams "v1.40" "https://example.org/ror.zip" [c3Rec] = none := by
  have h := C3_relationship_lookup_total_or_fatal "Sibling" (by decide)
    sampleParams "v1.40" "https://example.org/ror.zip" "https://ror.org/0abc1def2"
    c3Rec (by decide) (by decide) (by decide)
  exact h.2.2.2.2.2.2.2

/-- When every cross-reference literal of the identifier list encodes
fine, the uncontained emission loop of lines 266-273 appends exactly one
fact per identifier and does not raise. -/
theorem xrefEmit_all_ok (P : Params) (o np : String) (l : List String)
    (h : ∀ i ∈ l, P.litErr (curieToStr np (stripSpaces i)) = none) :
    ∀ st, foldSteps (xrefIdStep P o np) st l =
      ({ st with annots := st.annots ++ l.map (fun i =>
          Assertion.annotationLit oioHasDbXref o (curieToStr np (stripSpaces i)) []) },
        none) := by
  induction l with
  | nil =>
    intro st
    rw [foldSteps_nil]
    simp
  | cons i l ih =>
    intro st
    have hl := h i (List.mem_cons_self i l)
    rw [foldSteps_cons]
    have hstep : xrefIdStep P o np st i = ({ st with annots := st.annots ++
        [Assertion.annotationLit oioHasDbXref o (curieToStr np (stripSpaces i)) []] },
        none) := by
      simp [xrefIdStep, hl]
    rw [hstep]
    show foldSteps (xrefIdStep P o np) _ l = _
    rw [ih (fun j hj => h j (List.mem_cons_of_mem i hj)) _]
    simp

/-- C6: for a record whose external-identifier scheme has a recognized
prefix, and whose canonical reference strings all encode as literals (the
construction at lines 266-273 is fallible and uncontained), the raw
identifier collection is normalized (a bare string becomes a singleton
list), every space character is stripped from each identifier, and each
identifier yields exactly one cross-reference fact whose value is the
canonical "prefix:identifier" string built from the normalized prefix. -/
theorem C6_recognized_scheme_emits_canonical_xrefs (P : Params) (st : RunState)
    (r : Record) (q : String) (d : PyStrList) (np : String)
    (hq : P.normScheme q = some np) (hqn : q ≠ "OrgRef")
    (hname : P.litErr (nameRemap r.name) = none)
    (hok : ∀ i ∈ pyToList d, P.litErr (curieToStr np (stripSpaces i)) = none)
    (haddr : r.addresses = []) (hrel : r.relationships = [])
    (hali : r.aliases = []) (hacr : r.acronyms = [])
    (hext : r.external_ids = [(q, d)]) :
    (processRecord P st r).1.annots = st.annots ++
      [Assertion.annotationLit rdfsLabel r.id (nameRemap r.name) [],
       Assertion.classAssertion ORG_CLASS r.id] ++
      (pyToList d).map (fun i =>
        Assertion.annotationLit oioHasDbXref r.id (curieToStr np (stripSpaces i)) [])
    ∧ (processRecord P st r).2 = none := by
  have hx : xrefStep P r.id (nameRemap r.name) (orgOkState P st r) (q, d)
      = ({ orgOkState P st r with
            annots := (orgOkState P st r).annots ++ (pyToList d).map (fun i =>
              Assertion.annotationLit oioHasDbXref r.id
                (curieToStr np (stripSpaces i)) []) }, none) := by
    simp only [xrefStep, hq, if_neg hqn]
    exact xrefEmit_all_ok P r.id np (pyToList d) hok (orgOkState P st r)
  rw [processRecord_name_ok P st r hname, haddr, hrel, hali, hacr, hext]
  simp only [foldSteps_nil, foldSteps_cons, hx]
  constructor <;> simp [orgOkState]

theorem C6_witness :
    (processRecord sampleParams emptyState c6Rec).1.annots =
      [Assertion.annotationLit rdfsLabel "https://ror.org/0abc1def2" "Test University" [],
       Assertion.classAssertion ORG_CLASS "https://ror.org/0abc1def2",
       Assertion.annotationLit oioHasDbXref "https://ror.org/0abc1def2"
         "isni:0000000123456789" []] := by
  have h := C6_recognized_scheme_emits_canonical_xrefs sampleParams emptyState c6Rec
    "ISNI" (PyStrList.str "0000 0001 2345 6789") "isni"
    (by decide) (by decide) (by decide) (by decide) rfl rfl rfl rfl rfl
  rw [h.1]
  decide

/-- C9: when an unrecognized external-identifier scheme is reported, the
diagnostic iterates the scheme's raw `all` value directly, without the
bare-string-to-singleton normalization: a bare string is reported one
character per line rather than as the string itself. -/
theorem C9_unknown_scheme_diag_iterates_raw (P : Params) (st : RunState)
    (r : Record) (p s : String)
    (hp : P.normScheme p = none) (hpn : p ≠ "OrgRef")
    (hpm : p ∉ st.unhandled)
    (hname : P.litErr (nameRemap r.name) = none)
    (haddr : r.addresses = []) (hrel : r.relationships = [])
    (hali : r.aliases = []) (hacr : r.acronyms = [])
    (hext : r.external_ids = [(p, PyStrList.str s)])
    (hs : 2 ≤ s.length) :
    (processRecord P st r).1.diags = st.diags ++
      [Diag.unhandledScheme p (nameRemap r.name) r.id (s.toList.map Char.toString)]
    ∧ s.toList.map Char.toString ≠ [s] := by
  constructor
  · rw [processRecord_name_ok P st r hname, haddr, hrel, hali, hacr, hext]
    simp [foldSteps_nil, foldSteps_cons, xrefStep, hp, hpn, hpm, orgOkState, pyIter]
  · intro h
    have hlen := congrArg List.length h
    have htl : s.toList.length = s.length := rfl
    simp only [List.length_map, List.length_singleton] at hlen
    omega

theorem C9_witness :
    (processRecord sampleParams emptyState c9Rec).1.diags =
      [Diag.unhandledScheme "FooBarBaz" "Test University"
        "https://ror.org/09xyz9999" ["X", "1"]] := by
  have h := C9_unknown_scheme_diag_iterates_raw sampleParams emptyState c9Rec
    "FooBarBaz" "X1" (by decide) (by decide) (by decide) (by decide)
    rfl rfl rfl rfl rfl (by decide)
  rw [h.1]
  decide

theorem processRecord_err_none (P : Params) (st : RunState) (r : Record)
    (hc : ∀ c ∈ recordCities r, P.litErr (nameRemap c.city) ≠ some LitErr.typeError)
    (hr : ∀ rel ∈ r.relationships, (rmapLookup rel.type).isSome = true)
    (hx : ∀ e ∈ r.external_ids, xrefEntryOk P e = true) :
    (processRecord P st r).2 = none := by
  cases hn : P.litErr (nameRemap r.name) with
  | some e => rw [processRecord_name_bad P st r e hn]
  | none =>
    rw [processRecord_name_ok P st r hn]
    have hcf := foldSteps_none (cityStep P r.id) r.addresses
      (fun st' a ha => cityStep_err_none P r.id st' a
        (fun c hgc => hc c (List.mem_filterMap.mpr ⟨a, ha, hgc⟩)))
      (orgOkState P st r)
    cases h3 : foldSteps (cityStep P r.id) (orgOkState P st r) r.addresses with
    | mk st3 e3 =>
      rw [h3] at hcf
      simp only [] at hcf
      subst hcf
      simp only [h3]
      have hrf := foldSteps_none (relStep r.id) r.relationships
        (fun st' x hx => relStep_err_none r.id st' x (hr x hx)) st3
      cases h4 : foldSteps (relStep r.id) st3 r.relationships with
      | mk st4 e4 =>
        rw [h4] at hrf
        simp only [] at hrf
        subst hrf
        simp only [h4]
        have hsf := foldSteps_none (synStep P r.id (nameRemap r.name) (rorLuid r.id))
          r.aliases (fun st' x _ =>
            synStep_err P r.id (nameRemap r.name) (rorLuid r.id) st' x) st4
        cases h5 : foldSteps (synStep P r.id (nameRemap r.name) (rorLuid r.id)) st4 r.aliases with
        | mk st5 e5 =>
          rw [h5] at hsf
          simp only [] at hsf
          subst hsf
          simp only [h5]
          have haf := foldSteps_none (acrStep P r.id (nameRemap r.name))
            r.acronyms (fun st' x _ => acrStep_err P r.id (nameRemap r.name) st' x) st5
          cases h6 : foldSteps (acrStep P r.id (nameRemap r.name)) st5 r.acronyms with
          | mk st6 e6 =>
            rw [h6] at haf
            simp only [] at haf
            subst haf
            simp only [h6]
            exact foldSteps_none (xrefStep P r.id (nameRemap r.name))
              r.external_ids (fun st' x hxm =>
                xrefStep_err_none P r.id (nameRemap r.name) st' x (hx x hxm)) st6

theorem processRecord_err_sub (P : Params) (st : RunState) (r : Record)
    (e : RunErr) (he : (processRecord P st r).2 = some e) :
    (∃ k, e = RunErr.keyError k) ∨ ∃ le, e = RunErr.uncaught le := by
  cases hn : P.litErr (nameRemap r.name) with
  | some e' =>
    rw [processRecord_name_bad P st r e' hn] at he
    exact absurd he (by simp)
  | none =>
    rw [processRecord_name_ok P st r hn] at he
    cases h3 : foldSteps (cityStep P r.id) (orgOkState P st r) r.addresses with
    | mk st3 e3 =>
      rw [h3] at he
      cases e3 with
      | some e3' =>
        simp only [Option.some.injEq] at he
        subst he
        refine Or.inr ?_
        have hc := foldSteps_errSub (fun x => x = RunErr.uncaught LitErr.typeError)
          (cityStep P r.id) r.addresses
          (fun st' a _ x hx => cityStep_err_sub P r.id st' a x hx)
          (orgOkState P st r) e3' (by rw [h3])
        exact ⟨LitErr.typeError, hc⟩
      | none =>
        simp only [] at he
        cases h4 : foldSteps (relStep r.id) st3 r.relationships with
        | mk st4 e4 =>
          rw [h4] at he
          cases e4 with
          | some e4' =>
            simp only [Option.some.injEq] at he
            subst he
            exact Or.inl (foldSteps_errSub (fun x => ∃ k, x = RunErr.keyError k)
              (relStep r.id) r.relationships
              (fun st' x _ y hy => relStep_err_sub r.id st' x y hy)
              st3 e4' (by rw [h4]))
          | none =>
            simp only [] at he
            cases h5 : foldSteps (synStep P r.id (nameRemap r.name) (rorLuid r.id))
                st4 r.aliases with
            | mk st5 e5 =>
              rw [h5] at he
              cases e5 with
              | some e5' =>
                have := foldSteps_none (synStep P r.id (nameRemap r.name) (rorLuid r.id))
                  r.aliases (fun st' x _ =>
                    synStep_err P r.id (nameRemap r.name) (rorLuid r.id) st' x) st4
                rw [h5] at this
                exact absurd this (by simp)
              | none =>
                simp only [] at he
                cases h6 : foldSteps (acrStep P r.id (nameRemap r.name)) st5 r.acronyms with
                | mk st6 e6 =>
                  rw [h6] at he
                  cases e6 with
                  | some e6' =>
                    have := foldSteps_none (acrStep P r.id (nameRemap r.name))
                      r.acronyms (fun st' x _ =>
                        acrStep_err P r.id (nameRemap r.name) st' x) st5
                    rw [h6] at this
                    exact absurd this (by simp)
                  | none =>
                    simp only [] at he
                    refine Or.inr ?_
                    exact foldSteps_errSub (fun x => ∃ le, x = RunErr.uncaught le)
                      (xrefStep P r.id (nameRemap r.name)) r.external_ids
                      (fun st' x _ er' h' =>
                        xrefStep_err_sub P r.id (nameRemap r.name) st' x er' h')
                      st6 e he

/-- C5 (amended): recoverable per-field failures — organization label,
alias, acronym (any error), and city facts failing with `AssertionError` —
are only written to the diagnostics stream and never propagate: when
additionally no city label raises `TypeError`, every relationship type is
in the vocabulary, and every cross-reference literal encodes, processing a
record list completes without exception. The exceptions that can escape
record processing are a relationship-type lookup miss (`KeyError`) and
uncontained literal-construction errors: a `TypeError` during city fact
construction (the city handler catches only `AssertionError`), and any
literal error from the cross-reference fact construction, which has no
handler at all (lines 266-273) — the last conjunct shows such an xref
failure really does escape. -/
theorem C5_amended_containment_and_escapes (P : Params) (st : RunState)
    (rs : List Record) :
    ((∀ r ∈ rs,
        (∀ c ∈ recordCities r, P.litErr (nameRemap c.city) ≠ some LitErr.typeError)
        ∧ (∀ rel ∈ r.relationships, (rmapLookup rel.type).isSome = true)
        ∧ (∀ e ∈ r.external_ids, xrefEntryOk P e = true)) →
      (processRecords P st rs).2 = none)
    ∧ (∀ e, (processRecords P st rs).2 = some e →
        (∃ k, e = RunErr.keyError k) ∨ ∃ le, e = RunErr.uncaught le)
    ∧ (∀ (r : Record) (q np i : String) (le : LitErr),
        P.normScheme q = some np → q ≠ "OrgRef" →
        P.litErr (nameRemap r.name) = none →
        r.addresses = [] → r.relationships = [] →
        r.aliases = [] → r.acronyms = [] →
        r.external_ids = [(q, PyStrList.str i)] →
        P.litErr (curieToStr np (stripSpaces i)) = some le →
        (processRecords P st [r]).2 = some (RunErr.uncaught le)) := by
  refine ⟨?_, ?_, ?_⟩
  · intro h
    exact foldSteps_none (processRecord P) rs
      (fun st' r hr => processRecord_err_none P st' r
        (h r hr).1 (h r hr).2.1 (h r hr).2.2) st
  · intro e he
    exact foldSteps_errSub _ (processRecord P) rs
      (fun st' r _ x hx => processRecord_err_sub P st' r x hx) st e he
  · intro r q np i le hq hqn hname haddr hrel hali hacr hext hle
    rw [processRecords_single_err]
    rw [processRecord_name_ok P st r hname, haddr, hrel, hali, hacr, hext]
    have hx : xrefStep P r.id (nameRemap r.name) (orgOkState P st r) (q, PyStrList.str i)
        = (orgOkState P st r, some (RunErr.uncaught le)) := by
      simp only [xrefStep, hq, if_neg hqn]
      simp [pyToList, foldSteps_cons, foldSteps_nil, xrefIdStep, hle]
    simp only [foldSteps_nil, foldSteps_cons, hx]

theorem C5_witness :
    (processRecords sampleParams emptyState [c5OkRec]).2 = none
    ∧ (processRecords sampleParams emptyState [c5XrefRec]).2
        = some (RunErr.uncaught LitErr.assertError) :=
  ⟨(C5_amended_containment_and_escapes sampleParams emptyState [c5OkRec]).1
      (by decide),
   (C5_amended_containment_and_escapes sampleParams emptyState [c5XrefRec]).2.2
      c5XrefRec "ISNI" "isni" "FAIL" LitErr.assertError (by decide) (by decide)
      (by decide) rfl rfl rfl rfl rfl (by decide)⟩

/-- C5 counterexample: the claim says the only exception that escapes record
processing is a relationship-type lookup miss, and in particular that city
fact failures are always contained. On `c5Rec` the city label raises
`TypeError`; the city handler catches only `AssertionError`, so processing
escapes with an exception that is not a `KeyError`. -/
theorem C5_counterexample :
    (processRecords sampleParams emptyState [c5Rec]).2
        = some (RunErr.uncaught LitErr.typeError)
    ∧ isKeyErr (processRecords sampleParams emptyState [c5Rec]).2 = false := by
  decide

theorem schemeDiagCount_append_zero (p : String) (l d : List Diag)
    (h : ∀ x ∈ d, isSchemeDiag p x = false) :
    schemeDiagCount p (l ++ d) = schemeDiagCount p l :=
  countP_append_zero (isSchemeDiag p) l d h

theorem cityStep_diagInv (P : Params) (o : String) (st : RunState) (a : Address)
    (p : String) (h : diagInv p st) : diagInv p (cityStep P o st a).1 := by
  have hd : schemeDiagCount p (cityStep P o st a).1.diags
      = schemeDiagCount p st.diags := by
    cases hc : a.geonames_city with
    | none => simp [cityStep, hc]
    | some c =>
      cases hl : P.litErr (nameRemap c.city) with
      | none => simp [cityStep, hc, hl]
      | some le =>
        cases le with
        | assertError =>
          simp only [cityStep, hc, hl]
          exact schemeDiagCount_append_zero p st.diags _
            (by intro x hx; simp only [List.mem_singleton] at hx; subst hx; rfl)
        | typeError => simp [cityStep, hc, hl]
  unfold diagInv
  rw [hd, cityStep_unhandled]
  exact h

theorem relStep_diagInv (o : String) (st : RunState) (rel : Relationship)
    (p : String) (h : diagInv p st) : diagInv p (relStep o st rel).1 := by
  unfold diagInv
  rw [relStep_diags, relStep_unhandled]
  exact h

theorem synStep_diagInv (P : Params) (o n luid : String) (st : RunState)
    (s : String) (p : String) (h : diagInv p st) :
    diagInv p (synStep P o n luid st s).1 := by
  have hd : schemeDiagCount p (synStep P o n luid st s).1.diags
      = schemeDiagCount p st.diags := by
    cases hl : P.litErr s with
    | none => simp [synStep, hl]
    | some le =>
      simp only [synStep, hl]
      exact schemeDiagCount_append_zero p st.diags _
        (by intro x hx; simp only [List.mem_singleton] at hx; subst hx; rfl)
  unfold diagInv
  rw [hd, synStep_unhandled]
  exact h

theorem acrStep_diagInv (P : Params) (o n : String) (st : RunState)
    (s : String) (p : String) (h : diagInv p st) :
    diagInv p (acrStep P o n st s).1 := by
  have hd : schemeDiagCount p (acrStep P o n st s).1.diags
      = schemeDiagCount p st.diags := by
    cases hl : P.litErr s with
    | none => simp [acrStep, hl]
    | some le =>
      simp only [acrStep, hl]
      exact schemeDiagCount_append_zero p st.diags _
        (by intro x hx; simp only [List.mem_singleton] at hx; subst hx; rfl)
  unfold diagInv
  rw [hd, acrStep_unhandled]
  exact h

theorem xrefStep_diagInv (P : Params) (o n : String) (st : RunState)
    (e : String × PyStrList) (p : String) (h : diagInv p st) :
    diagInv p (xrefStep P o n st e).1 := by
  by_cases h1 : e.1 = "OrgRef"
  · simpa [xrefStep, h1] using h
  · cases h2 : P.normScheme e.1 with
    | some np =>
      have hd : (foldSteps (xrefIdStep P o np) st (pyToList e.2)).1.diags = st.diags :=
        foldSteps_natEq (fun s => s.diags) (xrefIdStep P o np) (pyToList e.2)
          (fun st' i _ => xrefIdStep_diags P o np st' i) st
      have hu : (foldSteps (xrefIdStep P o np) st (pyToList e.2)).1.unhandled
          = st.unhandled :=
        foldSteps_natEq (fun s => s.unhandled) (xrefIdStep P o np) (pyToList e.2)
          (fun st' i _ => xrefIdStep_unhandled P o np st' i) st
      unfold diagInv at h ⊢
      simp only [xrefStep, if_neg h1, h2]
      rw [hd, hu]
      exact h
    | none =>
      by_cases h3 : e.1 ∈ st.unhandled
      · simpa [xrefStep, h1, h2, h3] using h
      · unfold diagInv at h ⊢
        simp only [xrefStep, h1, h2, h3, if_neg, if_false, ite_false]
        by_cases h4 : p = e.1
        · have hp3 : p ∉ st.unhandled := by rw [h4]; exact h3
          have hcnt : schemeDiagCount p
              (st.diags ++ [Diag.unhandledScheme e.1 n o (pyIter e.2)])
              = schemeDiagCount p st.diags + 1 := by
            unfold schemeDiagCount
            rw [List.countP_append]
            simp [isSchemeDiag, h4]
          rw [hcnt, h]
          have hiff : (p ∈ st.unhandled ++ [e.1]) ↔ True := by
            simp [List.mem_append, h4]
          simp [hiff, hp3]
        · have hcnt : schemeDiagCount p
              (st.diags ++ [Diag.unhandledScheme e.1 n o (pyIter e.2)])
              = schemeDiagCount p st.diags := by
            refine schemeDiagCount_append_zero p st.diags _ ?_
            intro x hx
            simp only [List.mem_singleton] at hx
            subst hx
            simp only [isSchemeDiag]
            exact beq_eq_false_iff_ne.mpr (fun hh => h4 hh.symm)
          rw [hcnt, h]
          have hiff : (p ∈ st.unhandled ++ [e.1]) ↔ p ∈ st.unhandled := by
            simp [List.mem_append, h4]
          simp [hiff]

theorem xrefStep_unhandled_mono (P : Params) (o n : String) (st : RunState)
    (e : String × PyStrList) (p : String) (h : p ∈ st.unhandled) :
    p ∈ (xrefStep P o n st e).1.unhandled := by
  by_cases h1 : e.1 = "OrgRef"
  · simpa [xrefStep, h1] using h
  · cases h2 : P.normScheme e.1 with
    | some np =>
      have hu : (foldSteps (xrefIdStep P o np) st (pyToList e.2)).1.unhandled
          = st.unhandled :=
        foldSteps_natEq (fun s => s.unhandled) (xrefIdStep P o np) (pyToList e.2)
          (fun st' i _ => xrefIdStep_unhandled P o np st' i) st
      simp only [xrefStep, if_neg h1, h2]
      rw [hu]
      exact h
    | none =>
      by_cases h3 : e.1 ∈ st.unhandled
      · simpa [xrefStep, h1, h2, h3] using h
      · simp only [xrefStep, h1, h2, h3, if_neg, ite_false]
        simp [List.mem_append]
        exact Or.inl h

/-- A property preserved by every phase of record processing is preserved
by `processRecord`. -/
theorem processRecord_presQ (P : Params) (r : Record) (Q : RunState → Prop)
    (hbad : ∀ st : RunState, Q st → Q { st with
      decls := st.decls ++ [Decl.namedInd r.id],
      diags := st.diags ++ [Diag.failedOrg (nameRemap r.name) r.id] })
    (hok : ∀ st, Q st → Q (orgOkState P st r))
    (hc : ∀ st a, Q st → Q (cityStep P r.id st a).1)
    (hr : ∀ st x, Q st → Q (relStep r.id st x).1)
    (hs : ∀ st x, Q st → Q (synStep P r.id (nameRemap r.name) (rorLuid r.id) st x).1)
    (ha : ∀ st x, Q st → Q (acrStep P r.id (nameRemap r.name) st x).1)
    (hx : ∀ st x, Q st → Q (xrefStep P r.id (nameRemap r.name) st x).1) :
    ∀ st, Q st → Q (processRecord P st r).1 := by
  intro st hq
  cases hn : P.litErr (nameRemap r.name) with
  | some e =>
    rw [processRecord_name_bad P st r e hn]
    exact hbad st hq
  | none =>
    rw [processRecord_name_ok P st r hn]
    have hcf := foldSteps_pres Q (cityStep P r.id) r.addresses
      (fun st' a _ hq' => hc st' a hq') (orgOkState P st r) (hok st hq)
    cases h3 : foldSteps (cityStep P r.id) (orgOkState P st r) r.addresses with
    | mk st3 e3 =>
      rw [h3] at hcf
      cases e3 with
      | some e => simp only [h3]; exact hcf
      | none =>
        simp only [h3]
        have hrf := foldSteps_pres Q (relStep r.id) r.relationships
          (fun st' x _ hq' => hr st' x hq') st3 hcf
        cases h4 : foldSteps (relStep r.id) st3 r.relationships with
        | mk st4 e4 =>
          rw [h4] at hrf
          cases e4 with
          | some e => simp only [h4]; exact hrf
          | none =>
            simp only [h4]
            have hsf := foldSteps_pres Q
              (synStep P r.id (nameRemap r.name) (rorLuid r.id)) r.aliases
              (fun st' x _ hq' => hs st' x hq') st4 hrf
            cases h5 : foldSteps (synStep P r.id (nameRemap r.name) (rorLuid r.id))
                st4 r.aliases with
            | mk st5 e5 =>
              rw [h5] at hsf
              cases e5 with
              | some e => simp only [h5]; exact hsf
              | none =>
                simp only [h5]
                have haf := foldSteps_pres Q (acrStep P r.id (nameRemap r.name))
                  r.acronyms (fun st' x _ hq' => ha st' x hq') st5 hsf
                cases h6 : foldSteps (acrStep P r.id (nameRemap r.name)) st5 r.acronyms with
                | mk st6 e6 =>
                  rw [h6] at haf
                  cases e6 with
                  | some e => simp only [h6]; exact haf
                  | none =>
                    simp only [h6]
                    exact foldSteps_pres Q (xrefStep P r.id (nameRemap r.name))
                      r.external_ids (fun st' x _ hq' => hx st' x hq') st6 haf

theorem processRecord_diagInv (P : Params) (st : RunState) (r : Record)
    (p : String) (h : diagInv p st) : diagInv p (processRecord P st r).1 := by
  refine processRecord_presQ P r (diagInv p) ?_ ?_
    (fun st' a hq => cityStep_diagInv P r.id st' a p hq)
    (fun st' x hq => relStep_diagInv r.id st' x p hq)
    (fun st' x hq => synStep_diagInv P r.id (nameRemap r.name) (rorLuid r.id) st' x p hq)
    (fun st' x hq => acrStep_diagInv P r.id (nameRemap r.name) st' x p hq)
    (fun st' x hq => xrefStep_diagInv P r.id (nameRemap r.name) st' x p hq)
    st h
  · intro st' hq
    unfold diagInv at hq ⊢
    simp only []
    rw [schemeDiagCount_append_zero p st'.diags _
      (by intro x hx; simp only [List.mem_singleton] at hx; subst hx; rfl)]
    exact hq
  · intro st' hq
    unfold diagInv at hq ⊢
    simpa [orgOkState] using hq

theorem processRecord_unhandled_mono (P : Params) (st : RunState) (r : Record)
    (p : String) (h : p ∈ st.unhandled) :
    p ∈ (processRecord P st r).1.unhandled := by
  refine processRecord_presQ P r (fun s => p ∈ s.unhandled)
    (fun st' hq => hq) (fun st' hq => hq)
    (fun st' a hq => by
      show p ∈ (cityStep P r.id st' a).1.unhandled
      rw [cityStep_unhandled]; exact hq)
    (fun st' x hq => by
      show p ∈ (relStep r.id st' x).1.unhandled
      rw [relStep_unhandled]; exact hq)
    (fun st' x hq => by
      show p ∈ (synStep P r.id (nameRemap r.name) (rorLuid r.id) st' x).1.unhandled
      rw [synStep_unhandled]; exact hq)
    (fun st' x hq => by
      show p ∈ (acrStep P r.id (nameRemap r.name) st' x).1.unhandled
      rw [acrStep_unhandled]; exact hq)
    (fun st' x hq => xrefStep_unhandled_mono P r.id (nameRemap r.name) st' x p hq)
    st h

/-- Processing a list of external-id entries containing scheme `p` — with
`p` unresolvable and not "OrgRef" — leaves `p` in the unhandled set. -/
theorem xrefFold_adds (P : Params) (o n p : String)
    (hp : P.normScheme p = none) (hpn : p ≠ "OrgRef")
    (l : List (String × PyStrList)) (hmem : ∃ e ∈ l, e.1 = p)
    (hoks : ∀ e ∈ l, xrefEntryOk P e = true) :
    ∀ st, p ∈ (foldSteps (xrefStep P o n) st l).1.unhandled := by
  induction l with
  | nil =>
    rcases hmem with ⟨e, he, _⟩
    exact absurd he (List.not_mem_nil e)
  | cons x xs ih =>
    intro st
    rw [foldSteps_cons]
    cases hf : xrefStep P o n st x with
    | mk st1 e1 =>
      have he1 : e1 = none := by
        have := xrefStep_err_none P o n st x (hoks x (List.mem_cons_self x xs))
        rw [hf] at this
        simpa using this
      subst he1
      show p ∈ (foldSteps (xrefStep P o n) st1 xs).1.unhandled
      have hx1 : (xrefStep P o n st x).1 = st1 := by rw [hf]
      have hoks' : ∀ e ∈ xs, xrefEntryOk P e = true :=
        fun e he => hoks e (List.mem_cons_of_mem x he)
      rcases hmem with ⟨ee, hee, heq⟩
      rcases List.mem_cons.mp hee with rfl | htail
      · have hin : p ∈ st1.unhandled := by
          rw [← hx1]
          by_cases hmemb : p ∈ st.unhandled
          · exact xrefStep_unhandled_mono P o n st ee p hmemb
          · rw [← heq] at hpn hp hmemb ⊢
            simp [xrefStep, hpn, hp, hmemb, List.mem_append]
        exact foldSteps_pres (fun s => p ∈ s.unhandled) (xrefStep P o n) xs
          (fun s y _ hq => xrefStep_unhandled_mono P o n s y p hq) st1 hin
      · exact ih ⟨ee, htail, heq⟩ hoks' st1

/-- Processing a record that uses unresolvable scheme `p` (with valid name
and no addresses/relationships) succeeds and records `p` as unhandled. -/
theorem processRecord_adds_p (P : Params) (st : RunState) (r : Record) (p : String)
    (hp : P.normScheme p = none) (hpn : p ≠ "OrgRef")
    (hname : P.litErr (nameRemap r.name) = none)
    (haddr : r.addresses = []) (hrel : r.relationships = [])
    (hxok : ∀ e ∈ r.external_ids, xrefEntryOk P e = true)
    (hmem : ∃ e ∈ r.external_ids, e.1 = p) :
    p ∈ (processRecord P st r).1.unhandled ∧ (processRecord P st r).2 = none := by
  rw [processRecord_name_ok P st r hname, haddr, hrel]
  simp only [foldSteps_nil]
  cases h5 : foldSteps (synStep P r.id (nameRemap r.name) (rorLuid r.id))
      (orgOkState P st r) r.aliases with
  | mk st5 e5 =>
    have he5 : e5 = none := by
      have := foldSteps_none (synStep P r.id (nameRemap r.name) (rorLuid r.id))
        r.aliases (fun st' x _ =>
          synStep_err P r.id (nameRemap r.name) (rorLuid r.id) st' x) (orgOkState P st r)
      rw [h5] at this
      simpa using this
    subst he5
    simp only [h5]
    cases h6 : foldSteps (acrStep P r.id (nameRemap r.name)) st5 r.acronyms with
    | mk st6 e6 =>
      have he6 : e6 = none := by
        have := foldSteps_none (acrStep P r.id (nameRemap r.name))
          r.acronyms (fun st' x _ => acrStep_err P r.id (nameRemap r.name) st' x) st5
        rw [h6] at this
        simpa using this
      subst he6
      simp only [h6]
      exact ⟨xrefFold_adds P r.id (nameRemap r.name) p hp hpn r.external_ids
          hmem hxok st6,
        foldSteps_none (xrefStep P r.id (nameRemap r.name)) r.external_ids
          (fun st' x hxm =>
            xrefStep_err_none P r.id (nameRemap r.name) st' x (hxok x hxm)) st6⟩

theorem runMain_eq (P : Params) (v u : String) (rs : List Record) :
    runMain P v u rs = processRecords P (initState v u) rs := rfl

theorem xrefIdStep_count_of_none (P : Params) (o np : String) (st : RunState)
    (i : String) (h : (xrefIdStep P o np st i).2 = none) :
    xrefCount (xrefIdStep P o np st i).1.annots = xrefCount st.annots + 1 := by
  cases hl : P.litErr (curieToStr np (stripSpaces i)) with
  | some le => simp [xrefIdStep, hl] at h
  | none =>
    simp [xrefIdStep, hl, xrefCount, List.countP_append, List.countP_cons, isXref]

theorem xrefStep_xrefCount_of_none (P : Params) (o n : String) (st : RunState)
    (e : String × PyStrList) (h : (xrefStep P o n st e).2 = none) :
    xrefCount (xrefStep P o n st e).1.annots = xrefCount st.annots + xrefWeight P e := by
  by_cases h1 : e.1 = "OrgRef"
  · simp [xrefStep, xrefWeight, h1]
  · cases h2 : P.normScheme e.1 with
    | none =>
      by_cases h3 : e.1 ∈ st.unhandled <;>
        simp [xrefStep, xrefWeight, h1, h2, h3]
    | some np =>
      simp only [xrefStep, if_neg h1, h2] at h ⊢
      have hadd : xrefCount (foldSteps (xrefIdStep P o np) st (pyToList e.2)).1.annots
          = xrefCount st.annots + ((pyToList e.2).map (fun _ => 1)).sum :=
        foldSteps_add_of_none (fun s => xrefCount s.annots) (fun _ => 1)
          (xrefIdStep P o np) (pyToList e.2)
          (fun st' i _ hs => xrefIdStep_count_of_none P o np st' i hs) st h
      rw [hadd, sum_ones]
      simp [xrefWeight, h1, h2]

theorem processRecord_xrefCount (P : Params) (st : RunState) (r : Record)
    (hname : P.litErr (nameRemap r.name) = none)
    (hsucc : (processRecord P st r).2 = none) :
    xrefCount (processRecord P st r).1.annots = xrefCount st.annots + xrefTotal P r := by
  have horg : xrefCount (orgOkState P st r).annots = xrefCount st.annots := by
    unfold orgOkState xrefCount
    refine countP_append_zero _ _ _ ?_
    intro x hx
    simp only [List.mem_cons, List.not_mem_nil, or_false] at hx
    rcases hx with rfl | rfl
    · simp [isXref, beq_label_xref]
    · rfl
  rw [processRecord_name_ok P st r hname] at hsucc ⊢
  have hcf := foldSteps_natEq (fun s => xrefCount s.annots) (cityStep P r.id)
    r.addresses (fun st' a _ => cityStep_countA P r.id st' a isXref
      (fun c _ => rfl)
      (fun c _ => by simp [isXref, beq_label_xref])
      (fun c _ => rfl)) (orgOkState P st r)
  cases h3 : foldSteps (cityStep P r.id) (orgOkState P st r) r.addresses with
  | mk st3 e3 =>
    rw [h3] at hcf
    cases e3 with
    | some e =>
      simp only [h3] at hsucc
      exact absurd hsucc (by simp)
    | none =>
      simp only [h3] at hsucc ⊢
      have hrf := foldSteps_natEq (fun s => xrefCount s.annots) (relStep r.id)
        r.relationships (fun st' x _ => relStep_countA r.id st' x isXref
          (fun q tg => rfl)) st3
      cases h4 : foldSteps (relStep r.id) st3 r.relationships with
      | mk st4 e4 =>
        rw [h4] at hrf
        cases e4 with
        | some e =>
          simp only [h4] at hsucc
          exact absurd hsucc (by simp)
        | none =>
          simp only [h4] at hsucc ⊢
          have hsf := foldSteps_natEq (fun s => xrefCount s.annots)
            (synStep P r.id (nameRemap r.name) (rorLuid r.id)) r.aliases
            (fun st' x _ => synStep_countA P r.id (nameRemap r.name) (rorLuid r.id)
              st' x isXref (by simp [isXref, beq_syn_xref])) st4
          cases h5 : foldSteps (synStep P r.id (nameRemap r.name) (rorLuid r.id))
              st4 r.aliases with
          | mk st5 e5 =>
            rw [h5] at hsf
            cases e5 with
            | some e =>
              simp only [h5] at hsucc
              exact absurd hsucc (by simp)
            | none =>
              simp only [h5] at hsucc ⊢
              have haf := foldSteps_natEq (fun s => xrefCount s.annots)
                (acrStep P r.id (nameRemap r.name)) r.acronyms
                (fun st' x _ => acrStep_countA P r.id (nameRemap r.name)
                  st' x isXref (by simp [isXref, beq_syn_xref])) st5
              cases h6 : foldSteps (acrStep P r.id (nameRemap r.name)) st5 r.acronyms with
              | mk st6 e6 =>
                rw [h6] at haf
                cases e6 with
                | some e =>
                  simp only [h6] at hsucc
                  exact absurd hsucc (by simp)
                | none =>
                  simp only [h6] at hsucc ⊢
                  have hxf : xrefCount (foldSteps (xrefStep P r.id (nameRemap r.name))
                        st6 r.external_ids).1.annots
                      = xrefCount st6.annots + (r.external_ids.map (xrefWeight P)).sum :=
                    foldSteps_add_of_none (fun s => xrefCount s.annots) (xrefWeight P)
                      (xrefStep P r.id (nameRemap r.name)) r.external_ids
                      (fun st' x _ hs => xrefStep_xrefCount_of_none P r.id
                        (nameRemap r.name) st' x hs) st6 hsucc
                  rw [hxf, haf, hsf, hrf, hcf, horg]
                  rfl

/-- C4: an external-identifier scheme whose prefix does not resolve (and is
not the excluded "OrgRef") contributes zero cross-reference facts in every
record (the per-record xref-fact count is the sum of the resolvable-scheme
weights, and the unresolvable scheme's weight is zero), while its
diagnostic is emitted at most once per run, and exactly once as soon as
one processed record uses the scheme — regardless of how many do. -/
theorem C4_unresolvable_scheme_no_facts_one_diag (P : Params) (p : String)
    (hp : P.normScheme p = none) (hpn : p ≠ "OrgRef") :
    (∀ st r, P.litErr (nameRemap r.name) = none →
        (processRecord P st r).2 = none →
        xrefCount (processRecord P st r).1.annots = xrefCount st.annots + xrefTotal P r)
    ∧ (∀ d, xrefWeight P (p, d) = 0)
    ∧ (∀ v u rs, schemeDiagCount p (runMain P v u rs).1.diags ≤ 1)
    ∧ (∀ v u rs, rs ≠ [] →
        (∀ r ∈ rs, P.litErr (nameRemap r.name) = none ∧ r.addresses = []
          ∧ r.relationships = []
          ∧ (∀ e ∈ r.external_ids, xrefEntryOk P e = true)
          ∧ ∃ e ∈ r.external_ids, e.1 = p) →
        schemeDiagCount p (runMain P v u rs).1.diags = 1) := by
  have hinv0 : ∀ v u, diagInv p (initState v u) := by
    intro v u
    simp [diagInv, initState, schemeDiagCount]
  refine ⟨fun st r hn hs => processRecord_xrefCount P st r hn hs,
          fun d => by simp [xrefWeight, hp],
          fun v u rs => ?_, fun v u rs hne hall => ?_⟩
  · have hinv : diagInv p (processRecords P (initState v u) rs).1 :=
      foldSteps_pres (diagInv p) (processRecord P) rs
        (fun st' r _ hq => processRecord_diagInv P st' r p hq)
        (initState v u) (hinv0 v u)
    rw [runMain_eq]
    rw [diagInv] at hinv
    rw [hinv]
    split <;> simp
  · cases rs with
    | nil => exact absurd rfl hne
    | cons r rs' =>
      rw [runMain_eq]
      have hr0 := hall r (List.mem_cons_self r rs')
      have hadds := processRecord_adds_p P (initState v u) r p hp hpn
        hr0.1 hr0.2.1 hr0.2.2.1 hr0.2.2.2.1 hr0.2.2.2.2
      rw [processRecords_cons_ok P (initState v u) r rs' hadds.2]
      have hmemf : p ∈ (processRecords P (processRecord P (initState v u) r).1 rs').1.unhandled :=
        foldSteps_pres (fun s => p ∈ s.unhandled) (processRecord P) rs'
          (fun st' r' _ hq => processRecord_unhandled_mono P st' r' p hq)
          _ hadds.1
      have hinvf : diagInv p (processRecords P (processRecord P (initState v u) r).1 rs').1 :=
        foldSteps_pres (diagInv p) (processRecord P) rs'
          (fun st' r' _ hq => processRecord_diagInv P st' r' p hq)
          _ (processRecord_diagInv P (initState v u) r p (hinv0 v u))
      rw [diagInv] at hinvf
      rw [hinvf, if_pos hmemf]

/-- Two records both using the unknown scheme "FooBarBaz" with the spec's
example values. -/

theorem C4_witness :
    schemeDiagCount "FooBarBaz"
      (runMain sampleParams "v1.40" "https://example.org/ror.zip"
        [c4RecA, c4RecB]).1.diags = 1 := by
  have h := C4_unresolvable_scheme_no_facts_one_diag sampleParams "FooBarBaz"
    (by decide) (by decide)
  exact h.2.2.2 "v1.40" "https://example.org/ror.zip" [c4RecA, c4RecB]
    (by decide) (by decide)

theorem sum_cityW (u : String) (l : List Address) :
    (l.map (cityW u)).sum
      = (l.filterMap Address.geonames_city).countP (fun c => geonamesUri c.id == u) := by
  induction l with
  | nil => rfl
  | cons a l ih =>
    cases hgc : a.geonames_city with
    | none =>
      rw [List.map_cons, List.sum_cons, List.filterMap_cons_none hgc, ← ih]
      simp [cityW, hgc]
    | some c =>
      rw [List.map_cons, List.sum_cons, List.filterMap_cons_some hgc,
        List.countP_cons, ← ih]
      simp [cityW, hgc]
      omega

theorem cityStep_counts (P : Params) (o u : String) (st : RunState) (a : Address)
    (hv : ∀ c, a.geonames_city = some c → P.litErr (nameRemap c.city) = none) :
    (cityStep P o st a).2 = none
    ∧ namedIndCount u (cityStep P o st a).1.decls
        = namedIndCount u st.decls + cityW u a
    ∧ locCount u (cityStep P o st a).1.annots = locCount u st.annots + cityW u a
    ∧ labelCount u (cityStep P o st a).1.annots = labelCount u st.annots + cityW u a
    ∧ classCount CITY_CLASS u (cityStep P o st a).1.annots
        = classCount CITY_CLASS u st.annots + cityW u a := by
  cases hgc : a.geonames_city with
  | none => simp [cityStep, hgc, cityW]
  | some c =>
    have hlc := hv c hgc
    refine ⟨by simp [cityStep, hgc, hlc], ?_, ?_, ?_, ?_⟩ <;>
      simp [cityStep, hgc, hlc, cityW, namedIndCount, locCount, labelCount,
        classCount, isNamedIndFor, isLocTo, isLabelFor, isClassFor,
        List.countP_append, List.countP_cons]

theorem processRecord_cityCounts (P : Params) (st : RunState) (r : Record)
    (u : String)
    (hname : P.litErr (nameRemap r.name) = none)
    (hv : ∀ c ∈ recordCities r, P.litErr (nameRemap c.city) = none)
    (hu : u ≠ r.id) :
    namedIndCount u (processRecord P st r).1.decls
        = namedIndCount u st.decls + cityOcc r u
    ∧ locCount u (processRecord P st r).1.annots = locCount u st.annots + cityOcc r u
    ∧ labelCount u (processRecord P st r).1.annots
        = labelCount u st.annots + cityOcc r u
    ∧ classCount CITY_CLASS u (processRecord P st r).1.annots
        = classCount CITY_CLASS u st.annots + cityOcc r u := by
  have hru : (r.id == u) = false := beq_eq_false_iff_ne.mpr (fun h => hu h.symm)
  have horgD : namedIndCount u (orgOkState P st r).decls = namedIndCount u st.decls := by
    simp [orgOkState, namedIndCount, isNamedIndFor, List.countP_append,
      List.countP_cons, hru]
  have horgL : locCount u (orgOkState P st r).annots = locCount u st.annots := by
    simp [orgOkState, locCount, isLocTo, List.countP_append, List.countP_cons]
  have horgLab : labelCount u (orgOkState P st r).annots = labelCount u st.annots := by
    simp [orgOkState, labelCount, isLabelFor, List.countP_append,
      List.countP_cons, hru]
  have horgC : classCount CITY_CLASS u (orgOkState P st r).annots
      = classCount CITY_CLASS u st.annots := by
    simp [orgOkState, classCount, isClassFor, List.countP_append,
      List.countP_cons, beq_org_city]
  rw [processRecord_name_ok P st r hname]
  have hvv : ∀ a : Address, a ∈ r.addresses →
      ∀ c, a.geonames_city = some c → P.litErr (nameRemap c.city) = none :=
    fun a ha c hgc => hv c (List.mem_filterMap.mpr ⟨a, ha, hgc⟩)
  have hc1 := foldSteps_add (fun s => namedIndCount u s.decls) (cityW u)
    (cityStep P r.id) r.addresses
    (fun st' a ha => ⟨(cityStep_counts P r.id u st' a (hvv a ha)).1,
      (cityStep_counts P r.id u st' a (hvv a ha)).2.1⟩) (orgOkState P st r)
  have hc2 := foldSteps_add (fun s => locCount u s.annots) (cityW u)
    (cityStep P r.id) r.addresses
    (fun st' a ha => ⟨(cityStep_counts P r.id u st' a (hvv a ha)).1,
      (cityStep_counts P r.id u st' a (hvv a ha)).2.2.1⟩) (orgOkState P st r)
  have hc3 := foldSteps_add (fun s => labelCount u s.annots) (cityW u)
    (cityStep P r.id) r.addresses
    (fun st' a ha => ⟨(cityStep_counts P r.id u st' a (hvv a ha)).1,
      (cityStep_counts P r.id u st' a (hvv a ha)).2.2.2.1⟩) (orgOkState P st r)
  have hc4 := foldSteps_add (fun s => classCount CITY_CLASS u s.annots) (cityW u)
    (cityStep P r.id) r.addresses
    (fun st' a ha => ⟨(cityStep_counts P r.id u st' a (hvv a ha)).1,
      (cityStep_counts P r.id u st' a (hvv a ha)).2.2.2.2⟩) (orgOkState P st r)
  have hsum : (r.addresses.map (cityW u)).sum = cityOcc r u := by
    rw [sum_cityW]
    rfl
  cases h3 : foldSteps (cityStep P r.id) (orgOkState P st r) r.addresses with
  | mk st3 e3 =>
    rw [h3] at hc1 hc2 hc3 hc4
    have he3 : e3 = none := by simpa using hc1.1
    subst he3
    simp only [h3]
    have k1 : namedIndCount u st3.decls = namedIndCount u st.decls + cityOcc r u := by
      have h := hc1.2
      rw [hsum, horgD] at h
      exact h
    have k2 : locCount u st3.annots = locCount u st.annots + cityOcc r u := by
      have h := hc2.2
      rw [hsum, horgL] at h
      exact h
    have k3 : labelCount u st3.annots = labelCount u st.annots + cityOcc r u := by
      have h := hc3.2
      rw [hsum, horgLab] at h
      exact h
    have k4 : classCount CITY_CLASS u st3.annots
        = classCount CITY_CLASS u st.annots + cityOcc r u := by
      have h := hc4.2
      rw [hsum, horgC] at h
      exact h
    have hr1 := foldSteps_natEq (fun s => namedIndCount u s.decls) (relStep r.id)
      r.relationships (fun st' x _ => by
        show namedIndCount u (relStep r.id st' x).1.decls = namedIndCount u st'.decls
        rw [relStep_decls]) st3
    have hr2 := foldSteps_natEq (fun s => locCount u s.annots) (relStep r.id)
      r.relationships (fun st' x _ =>
        relStep_countA r.id st' x (isLocTo u) (fun q tg => rfl)) st3
    have hr3 := foldSteps_natEq (fun s => labelCount u s.annots) (relStep r.id)
      r.relationships (fun st' x _ =>
        relStep_countA r.id st' x (isLabelFor u) (fun q tg => rfl)) st3
    have hr4 := foldSteps_natEq (fun s => classCount CITY_CLASS u s.annots)
      (relStep r.id) r.relationships (fun st' x _ =>
        relStep_countA r.id st' x (isClassFor CITY_CLASS u) (fun q tg => rfl)) st3
    cases h4 : foldSteps (relStep r.id) st3 r.relationships with
    | mk st4 e4 =>
      rw [h4] at hr1 hr2 hr3 hr4
      cases e4 with
      | some e =>
        simp only [h4]
        exact ⟨hr1.trans k1, hr2.trans k2, hr3.trans k3, hr4.trans k4⟩
      | none =>
        simp only [h4]
        have m1 : namedIndCount u st4.decls = namedIndCount u st.decls + cityOcc r u :=
          hr1.trans k1
        have m2 : locCount u st4.annots = locCount u st.annots + cityOcc r u :=
          hr2.trans k2
        have m3 : labelCount u st4.annots = labelCount u st.annots + cityOcc r u :=
          hr3.trans k3
        have m4 : classCount CITY_CLASS u st4.annots
            = classCount CITY_CLASS u st.annots + cityOcc r u := hr4.trans k4
        have hs1 := foldSteps_natEq (fun s => namedIndCount u s.decls)
          (synStep P r.id (nameRemap r.name) (rorLuid r.id)) r.aliases
          (fun st' x _ => by
            show namedIndCount u
              (synStep P r.id (nameRemap r.name) (rorLuid r.id) st' x).1.decls
              = namedIndCount u st'.decls
            rw [synStep_decls]) st4
        have hs2 := foldSteps_natEq (fun s => locCount u s.annots)
          (synStep P r.id (nameRemap r.name) (rorLuid r.id)) r.aliases
          (fun st' x _ => synStep_countA P r.id (nameRemap r.name) (rorLuid r.id)
            st' x (isLocTo u) rfl) st4
        have hs3 := foldSteps_natEq (fun s => labelCount u s.annots)
          (synStep P r.id (nameRemap r.name) (rorLuid r.id)) r.aliases
          (fun st' x _ => synStep_countA P r.id (nameRemap r.name) (rorLuid r.id)
            st' x (isLabelFor u) (by simp [isLabelFor, beq_syn_label])) st4
        have hs4 := foldSteps_natEq (fun s => classCount CITY_CLASS u s.annots)
          (synStep P r.id (nameRemap r.name) (rorLuid r.id)) r.aliases
          (fun st' x _ => synStep_countA P r.id (nameRemap r.name) (rorLuid r.id)
            st' x (isClassFor CITY_CLASS u) rfl) st4
        cases h5 : foldSteps (synStep P r.id (nameRemap r.name) (rorLuid r.id))
            st4 r.aliases with
        | mk st5 e5 =>
          rw [h5] at hs1 hs2 hs3 hs4
          cases e5 with
          | some e =>
            simp only [h5]
            exact ⟨hs1.trans m1, hs2.trans m2, hs3.trans m3, hs4.trans m4⟩
          | none =>
            simp only [h5]
            have n1 : namedIndCount u st5.decls
                = namedIndCount u st.decls + cityOcc r u := hs1.trans m1
            have n2 : locCount u st5.annots
                = locCount u st.annots + cityOcc r u := hs2.trans m2
            have n3 : labelCount u st5.annots
                = labelCount u st.annots + cityOcc r u := hs3.trans m3
            have n4 : classCount CITY_CLASS u st5.annots
                = classCount CITY_CLASS u st.annots + cityOcc r u := hs4.trans m4
            have ha1 := foldSteps_natEq (fun s => namedIndCount u s.decls)
              (acrStep P r.id (nameRemap r.name)) r.acronyms
              (fun st' x _ => by
                show namedIndCount u
                  (acrStep P r.id (nameRemap r.name) st' x).1.decls
                  = namedIndCount u st'.decls
                rw [acrStep_decls]) st5
            have ha2 := foldSteps_natEq (fun s => locCount u s.annots)
              (acrStep P r.id (nameRemap r.name)) r.acronyms
              (fun st' x _ => acrStep_countA P r.id (nameRemap r.name)
                st' x (isLocTo u) rfl) st5
            have ha3 := foldSteps_natEq (fun s => labelCount u s.annots)
              (acrStep P r.id (nameRemap r.name)) r.acronyms
              (fun st' x _ => acrStep_countA P r.id (nameRemap r.name)
                st' x (isLabelFor u) (by simp [isLabelFor, beq_syn_label])) st5
            have ha4 := foldSteps_natEq (fun s => classCount CITY_CLASS u s.annots)
              (acrStep P r.id (nameRemap r.name)) r.acronyms
              (fun st' x _ => acrStep_countA P r.id (nameRemap r.name)
                st' x (isClassFor CITY_CLASS u) rfl) st5
            cases h6 : foldSteps (acrStep P r.id (nameRemap r.name)) st5 r.acronyms with
            | mk st6 e6 =>
              rw [h6] at ha1 ha2 ha3 ha4
              cases e6 with
              | some e =>
                simp only [h6]
                exact ⟨ha1.trans n1, ha2.trans n2, ha3.trans n3, ha4.trans n4⟩
              | none =>
                simp only [h6]
                have hx1 := foldSteps_natEq (fun s => namedIndCount u s.decls)
                  (xrefStep P r.id (nameRemap r.name)) r.external_ids
                  (fun st' x _ => by
                    show namedIndCount u
                      (xrefStep P r.id (nameRemap r.name) st' x).1.decls
                      = namedIndCount u st'.decls
                    rw [xrefStep_decls]) st6
                have hx2 := foldSteps_natEq (fun s => locCount u s.annots)
                  (xrefStep P r.id (nameRemap r.name)) r.external_ids
                  (fun st' x _ => xrefStep_countA P r.id (nameRemap r.name)
                    st' x (isLocTo u) (fun v => rfl)) st6
                have hx3 := foldSteps_natEq (fun s => labelCount u s.annots)
                  (xrefStep P r.id (nameRemap r.name)) r.external_ids
                  (fun st' x _ => xrefStep_countA P r.id (nameRemap r.name)
                    st' x (isLabelFor u)
                    (fun v => by simp [isLabelFor, beq_xref_label])) st6
                have hx4 := foldSteps_natEq (fun s => classCount CITY_CLASS u s.annots)
                  (xrefStep P r.id (nameRemap r.name)) r.external_ids
                  (fun st' x _ => xrefStep_countA P r.id (nameRemap r.name)
                    st' x (isClassFor CITY_CLASS u) (fun v => rfl)) st6
                exact ⟨(hx1.trans ha1).trans n1, (hx2.trans ha2).trans n2,
                  (hx3.trans ha3).trans n3, (hx4.trans ha4).trans n4⟩

/-- C7: every address carrying a nested city descriptor yields one city
individual declaration plus its location fact, label, and class assertion,
per occurrence: when the same city reference `u` occurs under several
addresses or several organizations, each occurrence contributes its own
copy — city declarations are never globally deduplicated within a run. -/
theorem C7_city_declared_per_occurrence (P : Params) (st : RunState)
    (r r' : Record) (u : String)
    (hname : P.litErr (nameRemap r.name) = none)
    (hname' : P.litErr (nameRemap r'.name) = none)
    (hv : ∀ c ∈ recordCities r, P.litErr (nameRemap c.city) = none)
    (hv' : ∀ c ∈ recordCities r', P.litErr (nameRemap c.city) = none)
    (hu : u ≠ r.id) (hu' : u ≠ r'.id) :
    (namedIndCount u (processRecord P st r).1.decls
        = namedIndCount u st.decls + cityOcc r u
      ∧ locCount u (processRecord P st r).1.annots
        = locCount u st.annots + cityOcc r u
      ∧ labelCount u (processRecord P st r).1.annots
        = labelCount u st.annots + cityOcc r u
      ∧ classCount CITY_CLASS u (processRecord P st r).1.annots
        = classCount CITY_CLASS u st.annots + cityOcc r u)
    ∧ ((processRecord P st r).2 = none →
        namedIndCount u (processRecords P st [r, r']).1.decls
            = namedIndCount u st.decls + cityOcc r u + cityOcc r' u
        ∧ locCount u (processRecords P st [r, r']).1.annots
            = locCount u st.annots + cityOcc r u + cityOcc r' u) := by
  have h1 := processRecord_cityCounts P st r u hname hv hu
  refine ⟨h1, fun hsucc => ?_⟩
  rw [processRecords_cons_ok P st r [r'] hsucc, processRecords_single]
  have h2 := processRecord_cityCounts P (processRecord P st r).1 r' u hname' hv' hu'
  exact ⟨by rw [h2.1, h1.1], by rw [h2.2.1, h1.2.1]⟩

theorem C7_witness :
    namedIndCount "https://www.geonames.org/123"
        (processRecords sampleParams emptyState [c7RecA, c7RecB]).1.decls = 3
    ∧ locCount "https://www.geonames.org/123"
        (processRecords sampleParams emptyState [c7RecA, c7RecB]).1.annots = 3 := by
  have h := C7_city_declared_per_occurrence sampleParams emptyState c7RecA c7RecB
    "https://www.geonames.org/123" (by decide) (by decide) (by decide) (by decide)
    (by decide) (by decide)
  have h2 := h.2 (by decide)
  constructor
  · rw [h2.1]
    decide
  · rw [h2.2]
    decide

theorem cityStep_docEq (P : Params) (o : String) (a : Address) (s t : RunState)
    (hr : docEq s t) :
    docEq (cityStep P o s a).1 (cityStep P o t a).1
    ∧ (cityStep P o s a).2 = (cityStep P o t a).2 := by
  obtain ⟨hd, ha⟩ := hr
  cases hgc : a.geonames_city with
  | none => refine ⟨⟨?_, ?_⟩, ?_⟩ <;> simp [cityStep, hgc, hd, ha]
  | some c =>
    cases hl : P.litErr (nameRemap c.city) with
    | none => refine ⟨⟨?_, ?_⟩, ?_⟩ <;> simp [cityStep, hgc, hl, hd, ha]
    | some le =>
      cases le <;> (refine ⟨⟨?_, ?_⟩, ?_⟩ <;> simp [cityStep, hgc, hl, hd, ha])

theorem relStep_docEq (o : String) (x : Relationship) (s t : RunState)
    (hr : docEq s t) :
    docEq (relStep o s x).1 (relStep o t x).1
    ∧ (relStep o s x).2 = (relStep o t x).2 := by
  obtain ⟨hd, ha⟩ := hr
  cases hl : rmapLookup x.type with
  | none => refine ⟨⟨?_, ?_⟩, ?_⟩ <;> simp [relStep, hl, hd, ha]
  | some q => refine ⟨⟨?_, ?_⟩, ?_⟩ <;> simp [relStep, hl, hd, ha]

theorem synStep_docEq (P : Params) (o n luid : String) (x : String)
    (s t : RunState) (hr : docEq s t) :
    docEq (synStep P o n luid s x).1 (synStep P o n luid t x).1
    ∧ (synStep P o n luid s x).2 = (synStep P o n luid t x).2 := by
  obtain ⟨hd, ha⟩ := hr
  cases hl : P.litErr x with
  | none => refine ⟨⟨?_, ?_⟩, ?_⟩ <;> simp [synStep, hl, hd, ha]
  | some le => refine ⟨⟨?_, ?_⟩, ?_⟩ <;> simp [synStep, hl, hd, ha]

theorem acrStep_docEq (P : Params) (o n : String) (x : String)
    (s t : RunState) (hr : docEq s t) :
    docEq (acrStep P o n s x).1 (acrStep P o n t x).1
    ∧ (acrStep P o n s x).2 = (acrStep P o n t x).2 := by
  obtain ⟨hd, ha⟩ := hr
  cases hl : P.litErr x with
  | none => refine ⟨⟨?_, ?_⟩, ?_⟩ <;> simp [acrStep, hl, hd, ha]
  | some le => refine ⟨⟨?_, ?_⟩, ?_⟩ <;> simp [acrStep, hl, hd, ha]

theorem xrefIdStep_docEq (P : Params) (o np : String) (i : String)
    (s t : RunState) (hr : docEq s t) :
    docEq (xrefIdStep P o np s i).1 (xrefIdStep P o np t i).1
    ∧ (xrefIdStep P o np s i).2 = (xrefIdStep P o np t i).2 := by
  obtain ⟨hd, ha⟩ := hr
  cases hl : P.litErr (curieToStr np (stripSpaces i)) with
  | none => refine ⟨⟨?_, ?_⟩, ?_⟩ <;> simp [xrefIdStep, hl, hd, ha]
  | some le => refine ⟨⟨?_, ?_⟩, ?_⟩ <;> simp [xrefIdStep, hl, hd, ha]

theorem xrefStep_docEq (P : Params) (o n : String) (x : String × PyStrList)
    (s t : RunState) (hr : docEq s t) :
    docEq (xrefStep P o n s x).1 (xrefStep P o n t x).1
    ∧ (xrefStep P o n s x).2 = (xrefStep P o n t x).2 := by
  obtain ⟨hd, ha⟩ := hr
  by_cases h1 : x.1 = "OrgRef"
  · refine ⟨⟨?_, ?_⟩, ?_⟩ <;> simp [xrefStep, h1, hd, ha]
  · cases h2 : P.normScheme x.1 with
    | some np =>
      simp only [xrefStep, if_neg h1, h2]
      exact foldSteps_bisim docEq (xrefIdStep P o np) (pyToList x.2)
        (fun s' t' i _ hq => xrefIdStep_docEq P o np i s' t' hq) s t ⟨hd, ha⟩
    | none =>
      by_cases h3 : x.1 ∈ s.unhandled <;> by_cases h4 : x.1 ∈ t.unhandled <;>
        (refine ⟨⟨?_, ?_⟩, ?_⟩ <;> simp [xrefStep, h1, h2, h3, h4, hd, ha])

theorem processRecord_docEq (P : Params) (r : Record) :
    ∀ s t, docEq s t →
      docEq (processRecord P s r).1 (processRecord P t r).1
      ∧ (processRecord P s r).2 = (processRecord P t r).2 := by
  intro s t hr
  cases hn : P.litErr (nameRemap r.name) with
  | some e =>
    rw [processRecord_name_bad P s r e hn, processRecord_name_bad P t r e hn]
    exact ⟨⟨by simp [hr.1], by simp [hr.2]⟩, rfl⟩
  | none =>
    rw [processRecord_name_ok P s r hn, processRecord_name_ok P t r hn]
    have horg : docEq (orgOkState P s r) (orgOkState P t r) :=
      ⟨by simp [orgOkState, hr.1], by simp [orgOkState, hr.2]⟩
    have hcb := foldSteps_bisim docEq (cityStep P r.id) r.addresses
      (fun s' t' a _ hq => cityStep_docEq P r.id a s' t' hq)
      (orgOkState P s r) (orgOkState P t r) horg
    cases h3s : foldSteps (cityStep P r.id) (orgOkState P s r) r.addresses with
    | mk s3 es =>
      cases h3t : foldSteps (cityStep P r.id) (orgOkState P t r) r.addresses with
      | mk t3 et =>
        rw [h3s, h3t] at hcb
        have hee : es = et := hcb.2
        subst hee
        cases es with
        | some e =>
          simp only [h3s, h3t]
          exact ⟨hcb.1, trivial⟩
        | none =>
          simp only [h3s, h3t]
          have hrb := foldSteps_bisim docEq (relStep r.id) r.relationships
            (fun s' t' x _ hq => relStep_docEq r.id x s' t' hq) s3 t3 hcb.1
          cases h4s : foldSteps (relStep r.id) s3 r.relationships with
          | mk s4 es4 =>
            cases h4t : foldSteps (relStep r.id) t3 r.relationships with
            | mk t4 et4 =>
              rw [h4s, h4t] at hrb
              have hee4 : es4 = et4 := hrb.2
              subst hee4
              cases es4 with
              | some e =>
                simp only [h4s, h4t]
                exact ⟨hrb.1, trivial⟩
              | none =>
                simp only [h4s, h4t]
                have hsb := foldSteps_bisim docEq
                  (synStep P r.id (nameRemap r.name) (rorLuid r.id)) r.aliases
                  (fun s' t' x _ hq =>
                    synStep_docEq P r.id (nameRemap r.name) (rorLuid r.id) x s' t' hq)
                  s4 t4 hrb.1
                cases h5s : foldSteps (synStep P r.id (nameRemap r.name) (rorLuid r.id))
                    s4 r.aliases with
                | mk s5 es5 =>
                  cases h5t : foldSteps (synStep P r.id (nameRemap r.name) (rorLuid r.id))
                      t4 r.aliases with
                  | mk t5 et5 =>
                    rw [h5s, h5t] at hsb
                    have hee5 : es5 = et5 := hsb.2
                    subst hee5
                    cases es5 with
                    | some e =>
                      simp only [h5s, h5t]
                      exact ⟨hsb.1, trivial⟩
                    | none =>
                      simp only [h5s, h5t]
                      have hab := foldSteps_bisim docEq
                        (acrStep P r.id (nameRemap r.name)) r.acronyms
                        (fun s' t' x _ hq =>
                          acrStep_docEq P r.id (nameRemap r.name) x s' t' hq)
                        s5 t5 hsb.1
                      cases h6s : foldSteps (acrStep P r.id (nameRemap r.name))
                          s5 r.acronyms with
                      | mk s6 es6 =>
                        cases h6t : foldSteps (acrStep P r.id (nameRemap r.name))
                            t5 r.acronyms with
                        | mk t6 et6 =>
                          rw [h6s, h6t] at hab
                          have hee6 : es6 = et6 := hab.2
                          subst hee6
                          cases es6 with
                          | some e =>
                            simp only [h6s, h6t]
                            exact ⟨hab.1, trivial⟩
                          | none =>
                            simp only [h6s, h6t]
                            exact foldSteps_bisim docEq
                              (xrefStep P r.id (nameRemap r.name)) r.external_ids
                              (fun s' t' x _ hq =>
                                xrefStep_docEq P r.id (nameRemap r.name) x s' t' hq)
                              s6 t6 hab.1

/-- C8: the serialized primary ontology document is a deterministic
function of the input snapshot (records, version label, source-provenance
URI): any two runs over an identical snapshot — even runs seeded with
different residual collaborator state (unhandled-prefix set, diagnostics,
term list), which the real `main` always starts empty — produce
byte-identical document text, or both produce none. -/
theorem C8_output_deterministic (P : Params) (v u : String) (rs : List Record)
    (j : List String × List Diag × List GTerm) :
    mainOutputFrom P v u rs j = mainOutput P v u rs := by
  have h0 : docEq
      { decls := initDecls, annots := initAnnots v u,
        unhandled := j.1, diags := j.2.1, terms := j.2.2 }
      { decls := initDecls, annots := initAnnots v u,
        unhandled := [], diags := [], terms := [] } := ⟨rfl, rfl⟩
  have hb := foldSteps_bisim docEq (processRecord P) rs
    (fun s' t' r _ hq => processRecord_docEq P r s' t' hq) _ _ h0
  cases hjs : runMainFrom P v u rs j with
  | mk sf ef =>
    cases h0s : runMainFrom P v u rs ([], [], []) with
    | mk tf et =>
      unfold runMainFrom processRecords at hjs h0s
      dsimp only at h0s
      rw [hjs, h0s] at hb
      have hee : ef = et := hb.2
      subst hee
      show mainOutputFrom P v u rs j = mainOutputFrom P v u rs ([], [], [])
      unfold mainOutputFrom
      have hjs' : runMainFrom P v u rs j = (sf, ef) := by
        unfold runMainFrom processRecords
        exact hjs
      have h0s' : runMainFrom P v u rs ([], [], []) = (tf, ef) := by
        unfold runMainFrom processRecords
        dsimp only
        exact h0s
      rw [hjs', h0s']
      cases ef with
      | none =>
        simp only []
        rw [hb.1.1, hb.1.2]
      | some e => rfl
